import Mathlib

/-!
Verification of the adaptive translation pipeline of the transcription app
backend (`backend/app/services/translation_service.py` and
`backend/app/core/retry.py`), shallowly embedded in Lean.

Numeric conventions: Python floats (timestamps, latencies, scores) are
modelled as rationals; machine-level float rounding plays no role in any of
the properties checked here.  Python `str.strip()` is modelled by `pyStrip`
(ASCII whitespace; the extra Unicode code points Python strips do not occur
in any input considered here).
-/

deriving instance DecidableEq for Except

namespace AITranscription

/-! ### SHA-256

`TranslationCache._fingerprint` computes
`hashlib.sha256(text.encode('utf-8')).hexdigest()[:16]`.  We embed SHA-256
itself so that fingerprint equalities/inequalities are decided against the
real hash, not a stand-in. -/

def w32 (n : Nat) : Nat := n % 4294967296

def rotr (n x : Nat) : Nat := w32 ((x >>> n) ||| (x <<< (32 - n)))

def K256 : List Nat :=
  [ 1116352408, 1899447441, 3049323471, 3921009573, 961987163,
    1508970993, 2453635748, 2870763221, 3624381080, 310598401,
    607225278, 1426881987, 1925078388, 2162078206, 2614888103,
    3248222580, 3835390401, 4022224774, 264347078, 604807628,
    770255983, 1249150122, 1555081692, 1996064986, 2554220882,
    2821834349, 2952996808, 3210313671, 3336571891, 3584528711,
    113926993, 338241895, 666307205, 773529912, 1294757372,
    1396182291, 1695183700, 1986661051, 2177026350, 2456956037,
    2730485921, 2820302411, 3259730800, 3345764771, 3516065817,
    3600352804, 4094571909, 275423344, 430227734, 506948616,
    659060556, 883997877, 958139571, 1322822218, 1537002063,
    1747873779, 1955562222, 2024104815, 2227730452, 2361852424,
    2428436474, 2756734187, 3204031479, 3329325298]

def H256 : List Nat :=
  [ 1779033703, 3144134277, 1013904242,
    2773480762, 1359893119, 2600822924,
    528734635, 1541459225]

def be64 (n : Nat) : List Nat :=
  [(n >>> 56) % 256, (n >>> 48) % 256, (n >>> 40) % 256, (n >>> 32) % 256,
   (n >>> 24) % 256, (n >>> 16) % 256, (n >>> 8) % 256, n % 256]

def bytesToWords : List Nat → List Nat
  | b0 :: b1 :: b2 :: b3 :: rest =>
      ((b0 <<< 24) ||| (b1 <<< 16) ||| (b2 <<< 8) ||| b3) :: bytesToWords rest
  | _ => []

def chunks64Aux : Nat → List Nat → List (List Nat)
  | 0, _ => []
  | _, [] => []
  | fuel + 1, x :: l => ((x :: l).take 64) :: chunks64Aux fuel ((x :: l).drop 64)

def chunks64 (l : List Nat) : List (List Nat) := chunks64Aux l.length l

def extendStep (w : Array Nat) : Array Nat :=
  let i := w.size
  let x15 := w.getD (i - 15) 0
  let x2 := w.getD (i - 2) 0
  let s0 := (rotr 7 x15) ^^^ (rotr 18 x15) ^^^ (x15 >>> 3)
  let s1 := (rotr 17 x2) ^^^ (rotr 19 x2) ^^^ (x2 >>> 10)
  w.push (w32 (w.getD (i - 16) 0 + s0 + w.getD (i - 7) 0 + s1))

def extendWords (w : Array Nat) : Array Nat :=
  (List.range 48).foldl (fun w _ => extendStep w) w

abbrev Sha8 := Nat × Nat × Nat × Nat × Nat × Nat × Nat × Nat

def compressStep (s : Sha8) (kw : Nat × Nat) : Sha8 :=
  let (a, b, c, d, e, f, g, h) := s
  let bigS1 := (rotr 6 e) ^^^ (rotr 11 e) ^^^ (rotr 25 e)
  let ch := (e &&& f) ^^^ ((e ^^^ 0xffffffff) &&& g)
  let temp1 := w32 (h + bigS1 + ch + kw.1 + kw.2)
  let bigS0 := (rotr 2 a) ^^^ (rotr 13 a) ^^^ (rotr 22 a)
  let maj := (a &&& b) ^^^ (a &&& c) ^^^ (b &&& c)
  let temp2 := w32 (bigS0 + maj)
  (w32 (temp1 + temp2), a, b, c, w32 (d + temp1), e, f, g)

def sha256Block (h : List Nat) (block : List Nat) : List Nat :=
  let w := extendWords (bytesToWords block).toArray
  let s0 : Sha8 := (h.getD 0 0, h.getD 1 0, h.getD 2 0, h.getD 3 0,
                    h.getD 4 0, h.getD 5 0, h.getD 6 0, h.getD 7 0)
  let f := (K256.zip w.toList).foldl compressStep s0
  [w32 (h.getD 0 0 + f.1), w32 (h.getD 1 0 + f.2.1), w32 (h.getD 2 0 + f.2.2.1),
   w32 (h.getD 3 0 + f.2.2.2.1), w32 (h.getD 4 0 + f.2.2.2.2.1),
   w32 (h.getD 5 0 + f.2.2.2.2.2.1), w32 (h.getD 6 0 + f.2.2.2.2.2.2.1),
   w32 (h.getD 7 0 + f.2.2.2.2.2.2.2)]

def sha256Pad (msg : List Nat) : List Nat :=
  msg ++ [0x80] ++ List.replicate ((119 - msg.length % 64) % 64) 0 ++ be64 (8 * msg.length)

def sha256Words (msg : List Nat) : List Nat :=
  (chunks64 (sha256Pad msg)).foldl sha256Block H256

def hexChar (n : Nat) : Char :=
  if n < 10 then Char.ofNat (48 + n) else Char.ofNat (87 + n)

def hex8 (n : Nat) : List Char :=
  (List.range 8).map (fun i => hexChar ((n >>> (28 - 4 * i)) % 16))

def charUtf8 (c : Char) : List Nat :=
  let n := c.toNat
  if n < 0x80 then [n]
  else if n < 0x800 then [0xc0 ||| (n >>> 6), 0x80 ||| (n % 64)]
  else if n < 0x10000 then
    [0xe0 ||| (n >>> 12), 0x80 ||| ((n >>> 6) % 64), 0x80 ||| (n % 64)]
  else
    [0xf0 ||| (n >>> 18), 0x80 ||| ((n >>> 12) % 64), 0x80 ||| ((n >>> 6) % 64), 0x80 ||| (n % 64)]

def utf8Bytes (s : String) : List Nat := (s.data.map charUtf8).flatten

/-- `hashlib.sha256(s.encode('utf-8')).hexdigest()[:16]` -/
def sha256hex16 (s : String) : String :=
  let ws := sha256Words (utf8Bytes s)
  String.mk (hex8 (ws.getD 0 0) ++ hex8 (ws.getD 1 0))

/-! ### Python string primitives

`str.strip()`, `str.split(sep)` and `sep.join(...)`, implemented over the
character list so that they evaluate inside the kernel. -/

def pySpace (c : Char) : Bool :=
  c == ' ' || c == '\t' || c == '\n' || c == '\r' || c == '\x0b' || c == '\x0c'

def stripList (l : List Char) : List Char :=
  ((l.dropWhile pySpace).reverse.dropWhile pySpace).reverse

/-- Python `s.strip()` (ASCII whitespace). -/
def pyStrip (s : String) : String := String.mk (stripList s.data)

/-- Index of the first occurrence of `sep` in `s`, if any. -/
def findOcc (sep : List Char) : List Char → Option Nat
  | [] => if sep = [] then some 0 else none
  | c :: rest =>
      if sep.isPrefixOf (c :: rest) then some 0 else (findOcc sep rest).map (· + 1)

def pySplitAux (sep : List Char) : Nat → List Char → List (List Char)
  | 0, s => [s]
  | fuel + 1, s =>
    match findOcc sep s with
    | none => [s]
    | some i => s.take i :: pySplitAux sep fuel (s.drop (i + sep.length))

/-- Python `s.split(sep)` for nonempty `sep`.  The fuel `s.length + 1` always
suffices since every split step consumes at least one character. -/
def pySplit (s sep : String) : List String :=
  (pySplitAux sep.data (s.data.length + 1) s.data).map String.mk

/-- Python `sep.join(parts)`. -/
def pyJoin (sep : String) (parts : List String) : String :=
  String.mk (List.intercalate sep.data (parts.map String.data))

/-! ### Fingerprints and the LRU cache (`TranslationCache`) -/

structure TranslationFingerprint where
  text_hash : String
  source_lang : String
  target_lang : String
deriving DecidableEq

/-- `TranslationCache._fingerprint`: the SHA-256 of the raw (unstripped)
UTF-8 text, truncated to the first 16 hex digits. -/
def fingerprint (text source target : String) : TranslationFingerprint :=
  ⟨sha256hex16 text, source, target⟩

/-- The `OrderedDict` is modelled as an association list whose head is the
least recently used entry. -/
structure TranslationCache where
  entries : List (TranslationFingerprint × String)
  max_size : Nat
  hits : Nat
  misses : Nat
deriving DecidableEq

def TranslationCache.mkEmpty (max_size : Nat := 10000) : TranslationCache :=
  ⟨[], max_size, 0, 0⟩

/-- Association-list lookup: dict lookup in the Python source. -/
def alookup {κ β : Type} [BEq κ] : List (κ × β) → κ → Option β
  | [], _ => none
  | p :: rest, k => if p.1 == k then some p.2 else alookup rest k

/-- Association-list update in place: `d[k] = v` on an existing key keeps
its position (as Python dicts do); a new key is appended. -/
def aset {κ β : Type} [BEq κ] : List (κ × β) → κ → β → List (κ × β)
  | [], k, v => [(k, v)]
  | p :: rest, k, v => if p.1 == k then (k, v) :: rest else p :: aset rest k v

def lookupEntry (l : List (TranslationFingerprint × String))
    (fp : TranslationFingerprint) : Option String :=
  alookup l fp

def eraseEntry (l : List (TranslationFingerprint × String))
    (fp : TranslationFingerprint) : List (TranslationFingerprint × String) :=
  l.filter (fun p => !(p.1 == fp))

/-- `TranslationCache.get`: on a hit the entry is promoted to
most-recently-used (`move_to_end`). -/
def TranslationCache.get (c : TranslationCache) (text source target : String) :
    Option String × TranslationCache :=
  let fp := fingerprint text source target
  match lookupEntry c.entries fp with
  | some v =>
      (some v, { c with hits := c.hits + 1,
                        entries := eraseEntry c.entries fp ++ [(fp, v)] })
  | none => (none, { c with misses := c.misses + 1 })

/-- `TranslationCache.set`: insert/update, promote to most-recently-used,
then evict the least-recently-used entry if over capacity. -/
def TranslationCache.set (c : TranslationCache) (text source target translation : String) :
    TranslationCache :=
  let fp := fingerprint text source target
  let entries := eraseEntry c.entries fp ++ [(fp, translation)]
  { c with entries := if entries.length > c.max_size then entries.drop 1 else entries }

/-! ### Batch strategies, metrics, strategy selector -/

inductive BatchStrategy
  | json_array
  | delimiter
  | individual
  | cached_only
deriving DecidableEq

structure BatchMetrics where
  attempts : Nat
  successes : Nat
  failures : Nat
  avg_latency : ℚ
  mismatch_count : Nat
deriving DecidableEq

def BatchMetrics.init : BatchMetrics := ⟨0, 0, 0, 0, 0⟩

def BatchMetrics.success_rate (m : BatchMetrics) : ℚ :=
  if m.attempts > 0 then (m.successes : ℚ) / (m.attempts : ℚ) else 0

def BatchMetrics.reliability_score (m : BatchMetrics) : ℚ :=
  if m.attempts < 3 then 1/2
  else
    max 0 (m.success_rate - min (3/10) ((m.mismatch_count : ℚ) * (1/10))
             - min (1/5) (m.avg_latency / 30))

abbrev StratKey := String × String × BatchStrategy

structure StrategySelector where
  metrics : List (StratKey × BatchMetrics)
deriving DecidableEq

def StrategySelector.init : StrategySelector := ⟨[]⟩

def lookupKey (l : List (StratKey × BatchMetrics)) (k : StratKey) : Option BatchMetrics :=
  alookup l k

/-- `StrategySelector.record_attempt`.  Note the source increments `attempts`
before updating the rolling average, so the average divides by the new
`attempts` value. -/
def StrategySelector.record_attempt (sel : StrategySelector) (source target : String)
    (strategy : BatchStrategy) (success : Bool) (latency : ℚ)
    (had_mismatch : Bool := false) : StrategySelector :=
  let key : StratKey := (source, target, strategy)
  let m0 := (lookupKey sel.metrics key).getD BatchMetrics.init
  let m1 := { m0 with attempts := m0.attempts + 1 }
  let m2 := if success then { m1 with successes := m1.successes + 1 }
            else { m1 with failures := m1.failures + 1 }
  let m3 := if had_mismatch then { m2 with mismatch_count := m2.mismatch_count + 1 } else m2
  let m4 := { m3 with
    avg_latency := (m3.avg_latency * ((m3.attempts - 1 : Nat) : ℚ) + latency) / (m3.attempts : ℚ) }
  ⟨aset sel.metrics key m4⟩

/-- The fixed priors used when no metrics exist for a key. -/
def defaultScore : BatchStrategy → ℚ
  | .json_array => 8/10
  | .delimiter => 6/10
  | .individual => 9/10
  | .cached_only => 1/2

def StrategySelector.scoreOf (sel : StrategySelector) (source target : String)
    (strategy : BatchStrategy) : ℚ :=
  match lookupKey sel.metrics (source, target, strategy) with
  | some m => m.reliability_score
  | none => defaultScore strategy

def pickBetter (best q : BatchStrategy × ℚ) : BatchStrategy × ℚ :=
  if q.2 > best.2 then q else best

/-- Python's `max(scores, key=scores.get)` over a dict built in list order:
the first key attaining the maximal score. -/
def maxByScore (scored : List (BatchStrategy × ℚ)) : BatchStrategy :=
  match scored with
  | [] => .individual
  | p :: rest => (rest.foldl pickBetter p).1

/-- `StrategySelector.get_best_strategy` -/
def StrategySelector.get_best_strategy (sel : StrategySelector) (source target : String)
    (segment_count : Nat) : BatchStrategy :=
  if segment_count = 1 then .individual
  else
    let preferred_order : List BatchStrategy :=
      if segment_count ≤ 5 then [.delimiter, .individual]
      else [.json_array, .delimiter, .individual]
    maxByScore (preferred_order.map (fun s => (s, sel.scoreOf source target s)))

/-! ### Circuit breaker (`app/core/retry.py`) -/

inductive CircuitState
  | closed
  | open'
  | half_open
deriving DecidableEq

structure CircuitBreaker where
  failure_threshold : Nat
  recovery_timeout : ℚ
  failure_count : Nat
  last_failure_time : Option ℚ
  state : CircuitState
deriving DecidableEq

def CircuitBreaker.init (failure_threshold : Nat := 5) (recovery_timeout : ℚ := 60) :
    CircuitBreaker :=
  ⟨failure_threshold, recovery_timeout, 0, none, .closed⟩

def CircuitBreaker.on_success (cb : CircuitBreaker) : CircuitBreaker :=
  let cb := { cb with failure_count := 0 }
  if cb.state = .half_open then { cb with state := .closed } else cb

def CircuitBreaker.on_failure (cb : CircuitBreaker) (now : ℚ) : CircuitBreaker :=
  let cb := { cb with failure_count := cb.failure_count + 1, last_failure_time := some now }
  if cb.failure_count ≥ cb.failure_threshold then { cb with state := .open' } else cb

/-- The OPEN-state check at the top of `CircuitBreaker.call`: the breaker
after the possible OPEN → HALF_OPEN transition, and whether the protected
function may be invoked. -/
def CircuitBreaker.guard (cb : CircuitBreaker) (now : ℚ) : CircuitBreaker × Bool :=
  if cb.state = .open' then
    if now - cb.last_failure_time.getD 0 ≥ cb.recovery_timeout then
      ({ cb with state := .half_open }, true)
    else (cb, false)
  else (cb, true)

inductive CallOutcome (α : Type)
  | rejected
  | success (a : α)
  | failure
deriving DecidableEq

/-- `CircuitBreaker.call`, with the protected function's outcome supplied as
`func` (`some` = normal return, `none` = raises the expected exception) and
`time.time()` supplied as `now`.  `rejected` models the
"Circuit breaker is OPEN" exception raised without invoking `func`. -/
def CircuitBreaker.call (cb : CircuitBreaker) (now : ℚ) (func : Option α) :
    CircuitBreaker × CallOutcome α :=
  let g := cb.guard now
  if g.2 then
    match func with
    | some a => (g.1.on_success, .success a)
    | none => (g.1.on_failure now, .failure)
  else (g.1, .rejected)

/-! ### The translation service pipeline -/

/-- A transcription segment.  The Python dict key `"end"` is named `stop`
(`end` is a Lean keyword); only `text` is ever rewritten by translation. -/
structure Seg where
  start : ℚ
  stop : ℚ
  text : String
deriving DecidableEq

def defaultSeg : Seg := ⟨0, 0, ""⟩

/-- The service's environment: `remote k q` is the outcome of the `k`-th
remote `/translate` request with query text `q` (`none` = timeout /
connection error / non-200), and `clock k` is the value returned by the
`k`-th `time.time()` read. -/
structure Env where
  remote : Nat → String → Option String
  clock : Nat → ℚ

structure ServiceState where
  cache : TranslationCache
  selector : StrategySelector
  breaker : CircuitBreaker
  calls : Nat
  ticks : Nat
deriving DecidableEq

/-- The state right after `TranslationService.__init__` (cache capacity
10000, breaker threshold 5 / timeout 60s, no remote traffic yet). -/
def ServiceState.init : ServiceState :=
  ⟨TranslationCache.mkEmpty 10000, StrategySelector.init, CircuitBreaker.init 5 60, 0, 0⟩

def readClock (env : Env) (st : ServiceState) : ServiceState × ℚ :=
  ({ st with ticks := st.ticks + 1 }, env.clock st.ticks)

def supported_languages : List String :=
  ["en", "es", "fr", "de", "zh", "ar", "pt", "ru", "ja", "it", "nl", "ko"]

/-- `_translate_single_uncached`: `some` is the returned translation,
`none` models a raised `TranslationError` (timeout, connection error,
non-200 status, or empty `translatedText`). -/
def translate_single_uncached (env : Env) (st : ServiceState) (text source target : String) :
    ServiceState × Option String :=
  if text = "" ∨ pyStrip text = "" then (st, some text)
  else if source = target then (st, some text)
  else
    let resp := env.remote st.calls text
    let st := { st with calls := st.calls + 1 }
    match resp with
    | some r => if pyStrip r = "" then (st, none) else (st, some (pyStrip r))
    | none => (st, none)

/-- `_translate_single`: cache check, then the circuit-breaker-protected
remote call, falling back to the original text on any error.  The breaker
logic is inlined because its two `time.time()` reads interleave with the
service's clock stream. -/
def translate_single (env : Env) (st : ServiceState) (text source target : String) :
    ServiceState × String :=
  let g := st.cache.get text source target
  match g.1 with
  | some cached => ({ st with cache := g.2 }, cached)
  | none =>
    let st0 := { st with cache := g.2 }
    let pre : ServiceState × Bool :=
      if st0.breaker.state = .open' then
        let r := readClock env st0
        if r.2 - st0.breaker.last_failure_time.getD 0 ≥ st0.breaker.recovery_timeout then
          ({ r.1 with breaker := { r.1.breaker with state := .half_open } }, true)
        else (r.1, false)
      else (st0, true)
    let st1 := pre.1
    if pre.2 then
      let u := translate_single_uncached env st1 text source target
      match u.2 with
      | some translated =>
          let st2 := { u.1 with breaker := u.1.breaker.on_success }
          let st3 := { st2 with cache := st2.cache.set text source target translated }
          (st3, translated)
      | none =>
          let r := readClock env u.1
          ({ r.1 with breaker := r.1.breaker.on_failure r.2 }, text)
    else (st1, text)

def dedupStep (acc : List Seg × List (String × List Nat)) (p : Nat × Seg) :
    List Seg × List (String × List Nat) :=
  let text := pyStrip p.2.text
  match alookup acc.2 text with
  | none => (acc.1 ++ [p.2], acc.2 ++ [(text, [p.1])])
  | some l => (acc.1, aset acc.2 text (l ++ [p.1]))

/-- `_deduplicate_segments`: unique segments in first-occurrence order, and
the map from each stripped text to the original indices carrying it. -/
def deduplicate_segments (segments : List Seg) : List Seg × List (String × List Nat) :=
  segments.enum.foldl dedupStep ([], [])

def DELIMITERS : List String := ["\n<|SEGMENT|>\n", "\n###SEG###\n", "\n|||SEG|||\n"]

/-- `_translate_batch_delimiter`, fuelled for structural recursion over the
remaining delimiters (fuel `DELIMITERS.length` always suffices because the
recursion only happens while `delimiter_idx < DELIMITERS.length - 1`). -/
def tbdAux (env : Env) : Nat → ServiceState → List Seg → String → String → Nat →
    ServiceState × Option (List Seg)
  | fuel, st, segments, source, target, delimiter_idx =>
    if segments = [] then (st, some [])
    else
      let delimiter := DELIMITERS.getD delimiter_idx ""
      let combined := pyJoin delimiter (segments.map (fun seg => pyStrip seg.text))
      let r0 := readClock env st
      let u := translate_single_uncached env r0.1 combined source target
      match u.2 with
      | none => (u.1, none)
      | some translated_combined =>
        let r1 := readClock env u.1
        let latency := r1.2 - r0.2
        let st1 := r1.1
        let translated_parts := pySplit translated_combined delimiter
        if translated_parts.length ≠ segments.length then
          if delimiter_idx < DELIMITERS.length - 1 then
            match fuel with
            | 0 => (st1, none)
            | fuel' + 1 => tbdAux env fuel' st1 segments source target (delimiter_idx + 1)
          else
            ({ st1 with selector :=
                st1.selector.record_attempt source target .delimiter false latency true },
             none)
        else
          let st2 := { st1 with selector :=
              st1.selector.record_attempt source target .delimiter true latency false }
          let built := (segments.zip translated_parts).foldl
            (fun acc p =>
              let trText := pyStrip p.2
              ({ acc.1 with cache := acc.1.cache.set (pyStrip p.1.text) source target trText },
               acc.2 ++ [{ start := p.1.start, stop := p.1.stop, text := trText }]))
            (st2, ([] : List Seg))
          (built.1, some built.2)

def translate_batch_delimiter (env : Env) (st : ServiceState) (segments : List Seg)
    (source target : String) (delimiter_idx : Nat := 0) : ServiceState × Option (List Seg) :=
  tbdAux env DELIMITERS.length st segments source target delimiter_idx

/-- `_translate_batch_individual`: always succeeds; records one aggregate
`INDIVIDUAL` success with the total latency. -/
def translate_batch_individual (env : Env) (st : ServiceState) (segments : List Seg)
    (source target : String) : ServiceState × List Seg :=
  let r0 := readClock env st
  let built := segments.foldl
    (fun acc seg =>
      let t := translate_single env acc.1 (pyStrip seg.text) source target
      (t.1, acc.2 ++ [{ start := seg.start, stop := seg.stop, text := t.2 }]))
    (r0.1, ([] : List Seg))
  let r1 := readClock env built.1
  ({ r1.1 with selector :=
      r1.1.selector.record_attempt source target .individual true (r1.2 - r0.2) false },
   built.2)

/-- One entry of the STEP-4 reconstruction loop: `result[idx] = {...}` for
every index carrying this stripped text. -/
def fillEntry (segments : List Seg) (ct : List (String × String))
    (result : List (Option Seg)) (entry : String × List Nat) : List (Option Seg) :=
  let translated_text := (alookup ct entry.1).getD entry.1
  entry.2.foldl
    (fun r idx =>
      r.set idx (some { start := (segments.getD idx defaultSeg).start,
                        stop := (segments.getD idx defaultSeg).stop,
                        text := translated_text }))
    result

def fillResult (segments : List Seg) (m : List (String × List Nat))
    (ct : List (String × String)) : List (Option Seg) :=
  m.foldl (fillEntry segments ct) (List.replicate segments.length none)

/-- STEP 2 of `translate_segments`: look every unique stripped text up in
the cache, partitioning into `to_translate` and the hit map. -/
def cacheLookupPhase (source_lang target_lang : String) (st : ServiceState)
    (unique_segments : List Seg) : ServiceState × List Seg × List (String × String) :=
  unique_segments.foldl
    (fun acc seg =>
      let text := pyStrip seg.text
      let g := acc.1.cache.get text source_lang target_lang
      match g.1 with
      | some cached => ({ acc.1 with cache := g.2 }, acc.2.1, acc.2.2 ++ [(text, cached)])
      | none => ({ acc.1 with cache := g.2 }, acc.2.1 ++ [seg], acc.2.2))
    (st, ([] : List Seg), ([] : List (String × String)))

/-- STEP 3 of `translate_segments`: pick a strategy and run the batch
translation with the delimiter → individual fallback. -/
def translateUncachedPhase (env : Env) (st : ServiceState) (to_translate : List Seg)
    (source_lang target_lang : String) : ServiceState × List Seg :=
  let strategy := st.selector.get_best_strategy source_lang target_lang to_translate.length
  if strategy = .delimiter ∧ to_translate.length > 1 then
    let d := translate_batch_delimiter env st to_translate source_lang target_lang 0
    match d.2 with
    | some translated => (d.1, translated)
    | none => translate_batch_individual env d.1 to_translate source_lang target_lang
  else translate_batch_individual env st to_translate source_lang target_lang

/-- The `if to_translate:` block of `translate_segments`: run STEP 3 when
there are uncached segments and merge the translations into the map. -/
def step3Phase (env : Env) (source_lang target_lang : String)
    (lk : ServiceState × List Seg × List (String × String)) :
    ServiceState × List (String × String) :=
  if lk.2.1 ≠ [] then
    let tr := translateUncachedPhase env lk.1 lk.2.1 source_lang target_lang
    (tr.1, lk.2.2 ++ (lk.2.1.zip tr.2).map (fun p => (pyStrip p.1.text, p.2.text)))
  else (lk.1, lk.2.2)

/-- `TranslationService.translate_segments`.  The `.error` value models the
raised `ValueError` for an unsupported target language; every other path
returns `.ok`.  Pure telemetry (`global_metrics`, logging) is not modelled. -/
def translate_segments (env : Env) (st : ServiceState) (segments : List Seg)
    (source_lang target_lang : String) : ServiceState × Except String (List Seg) :=
  if segments = [] then (st, .ok [])
  else if source_lang = target_lang then (st, .ok segments)
  else if ¬ supported_languages.contains target_lang then
    (st, .error ("Unsupported target language: " ++ target_lang))
  else
    let r0 := readClock env st
    let dd := deduplicate_segments segments
    let lk := cacheLookupPhase source_lang target_lang r0.1 dd.1
    let step3 := step3Phase env source_lang target_lang lk
    let result := fillResult segments dd.2 step3.2
    let r1 := readClock env step3.1
    (r1.1, .ok (result.map (fun o => o.getD defaultSeg)))

/-! ### The public surface called by `api/routes/translate_text.py`

The route's `/translate/text` handler invokes
`translation_service.translate(...)`, but the `TranslationService` class
defines no method named `translate`; the methods it does define are listed
here verbatim from the source. -/

def translationServiceMethods : List String :=
  ["__init__", "_create_session", "_check_service_health",
   "_translate_single_uncached", "_translate_single", "_deduplicate_segments",
   "_translate_batch_delimiter", "_translate_batch_individual",
   "translate_segments", "get_supported_languages", "get_metrics"]

/-- The attribute accessed on `translation_service` by the `/translate/text`
route handler (`translate_text.py`, line 97). -/
def translateTextRouteCall : String := "translate"

/-! ### Spec-side definitions and reachability predicates -/

/-- The reliability-score formula exactly as the specification states it:
`max(0, successes/attempts − min(0.3, mismatch_count*0.1) − min(0.2, avg_latency/30))`,
to be compared with the source's `BatchMetrics.reliability_score`. -/
def specReliabilityScore (m : BatchMetrics) : ℚ :=
  max 0 ((m.successes : ℚ) / (m.attempts : ℚ)
           - min (3/10) ((m.mismatch_count : ℚ) * (1/10))
           - min (1/5) (m.avg_latency / 30))

/-- Circuit-breaker states reachable from a freshly constructed breaker by
any sequence of calls (arbitrary clock values and call outcomes). -/
inductive CBReach : CircuitBreaker → Prop
  | init (threshold : Nat) (timeout : ℚ) : CBReach (CircuitBreaker.init threshold timeout)
  | step (cb : CircuitBreaker) (now : ℚ) (f : Option Unit) (h : CBReach cb) :
      CBReach (cb.call now f).1

/-- Cache states reachable from an empty cache by any sequence of
`get`/`set` operations. -/
inductive CacheReach : TranslationCache → Prop
  | init (n : Nat) : CacheReach (TranslationCache.mkEmpty n)
  | getStep (c : TranslationCache) (text source target : String) (h : CacheReach c) :
      CacheReach (c.get text source target).2
  | setStep (c : TranslationCache) (text source target translation : String) (h : CacheReach c) :
      CacheReach (c.set text source target translation)

/-! ### Concrete environments used to instantiate theorems -/

/-- Remote endpoint that always fails, clock frozen at 0. -/
def failEnvW : Env := ⟨fun _ _ => none, fun _ => 0⟩

/-- Remote endpoint that always answers `r`, clock frozen at 0. -/
def constEnvW (r : String) : Env := ⟨fun _ _ => some r, fun _ => 0⟩

/-- Remote endpoint whose first response corrupts the primary delimiter
(splits into one part) and whose later responses carry delimiter #1. -/
def delimRotateEnvW : Env :=
  ⟨fun k _ => if k = 0 then some "X" else some "A\n###SEG###\nB", fun _ => 0⟩

/-- Selector with three recorded `DELIMITER` successes for en→fr (so that
`get_best_strategy` picks the delimiter batch strategy). -/
def seededDelimSelector : StrategySelector :=
  ((StrategySelector.init.record_attempt "en" "fr" .delimiter true 0).record_attempt
      "en" "fr" .delimiter true 0).record_attempt "en" "fr" .delimiter true 0

/-- Selector with three recorded `JSON_ARRAY` successes for en→fr. -/
def seededJsonSelector : StrategySelector :=
  ((StrategySelector.init.record_attempt "en" "fr" .json_array true 0).record_attempt
      "en" "fr" .json_array true 0).record_attempt "en" "fr" .json_array true 0

/-! ## Helper lemmas about stripping -/

theorem dropWhile_head?_not {α : Type} {p : α → Bool} :
    ∀ {l : List α} {c : α}, (l.dropWhile p).head? = some c → p c = false := by
  intro l
  induction l with
  | nil => intro c h; simp [List.dropWhile] at h
  | cons x xs ih =>
    intro c h
    rw [List.dropWhile_cons] at h
    by_cases hx : p x = true
    · exact ih (by simpa [hx] using h)
    · have hxc : x = c := by simpa [hx] using h
      subst hxc
      simpa using hx

theorem dropWhile_getLast?_of_ne_nil {α : Type} {p : α → Bool} :
    ∀ {l : List α}, l.dropWhile p ≠ [] → (l.dropWhile p).getLast? = l.getLast? := by
  intro l
  induction l with
  | nil => intro h; simp [List.dropWhile] at h
  | cons x xs ih =>
    intro h
    rw [List.dropWhile_cons] at h ⊢
    by_cases hx : p x = true
    · simp only [if_pos hx] at h ⊢
      have hxs : xs ≠ [] := by
        intro e; subst e; simp [List.dropWhile] at h
      rw [ih h]
      cases xs with
      | nil => exact absurd rfl hxs
      | cons y ys => simp
    · simp [hx]

theorem dropWhile_eq_self_of_head? {α : Type} {p : α → Bool} {l : List α}
    (h : ∀ c, l.head? = some c → p c = false) : l.dropWhile p = l := by
  cases l with
  | nil => rfl
  | cons x xs => rw [List.dropWhile_cons, if_neg (by simp [h x rfl])]

theorem stripList_head?_not {l : List Char} {c : Char}
    (h : (stripList l).head? = some c) : pySpace c = false := by
  unfold stripList at h
  rw [← List.getLast?_eq_head?_reverse] at h
  have hne : (l.dropWhile pySpace).reverse.dropWhile pySpace ≠ [] := by
    intro e; rw [e] at h; simp at h
  rw [dropWhile_getLast?_of_ne_nil hne, List.getLast?_eq_head?_reverse,
    List.reverse_reverse] at h
  exact dropWhile_head?_not h

theorem stripList_getLast?_not {l : List Char} {c : Char}
    (h : (stripList l).getLast? = some c) : pySpace c = false := by
  unfold stripList at h
  rw [List.getLast?_eq_head?_reverse, List.reverse_reverse] at h
  exact dropWhile_head?_not h

theorem stripList_idem (l : List Char) : stripList (stripList l) = stripList l := by
  have h1 : (stripList l).dropWhile pySpace = stripList l :=
    dropWhile_eq_self_of_head? (fun _ hc => stripList_head?_not hc)
  have h2 : (stripList l).reverse.dropWhile pySpace = (stripList l).reverse := by
    apply dropWhile_eq_self_of_head?
    intro c hc
    rw [← List.getLast?_eq_head?_reverse] at hc
    exact stripList_getLast?_not hc
  show (((stripList l).dropWhile pySpace).reverse.dropWhile pySpace).reverse = stripList l
  rw [h1, h2, List.reverse_reverse]

theorem pyStrip_idem (s : String) : pyStrip (pyStrip s) = pyStrip s := by
  show String.mk (stripList (stripList s.data)) = String.mk (stripList s.data)
  rw [stripList_idem]

/-! ## Helper lemmas about association lists -/

theorem alookup_some_mem {κ β : Type} [BEq κ] [LawfulBEq κ] :
    ∀ {m : List (κ × β)} {k : κ} {v : β}, alookup m k = some v → (k, v) ∈ m := by
  intro m
  induction m with
  | nil => intro k v h; simp [alookup] at h
  | cons p rest ih =>
    intro k v h
    rw [alookup] at h
    by_cases hb : p.1 == k
    · rw [if_pos hb] at h
      have h1 : p.1 = k := by simpa using hb
      have h2 : p.2 = v := by simpa using h
      have hp : p = (k, v) := by cases p; simp only at h1 h2; rw [h1, h2]
      rw [← hp]
      exact List.mem_cons_self _ _
    · rw [if_neg hb] at h
      exact List.mem_cons_of_mem _ (ih h)

theorem mem_aset_self {κ β : Type} [BEq κ] [LawfulBEq κ] :
    ∀ (m : List (κ × β)) (k : κ) (v : β), (k, v) ∈ aset m k v := by
  intro m
  induction m with
  | nil => intro k v; simp [aset]
  | cons p rest ih =>
    intro k v
    rw [aset]
    by_cases hb : p.1 == k
    · rw [if_pos hb]; exact List.mem_cons_self _ _
    · rw [if_neg hb]; exact List.mem_cons_of_mem _ (ih k v)

theorem mem_aset_of_mem {κ β : Type} [BEq κ] :
    ∀ {m : List (κ × β)} {k : κ} {v : β} {e}, e ∈ aset m k v → e = (k, v) ∨ e ∈ m := by
  intro m
  induction m with
  | nil => intro k v e h; simp [aset] at h; left; exact h
  | cons p rest ih =>
    intro k v e h
    rw [aset] at h
    by_cases hb : p.1 == k
    · rw [if_pos hb] at h
      rcases List.mem_cons.1 h with h | h
      · left; exact h
      · right; exact List.mem_cons_of_mem _ h
    · rw [if_neg hb] at h
      rcases List.mem_cons.1 h with h | h
      · right; rw [h]; exact List.mem_cons_self _ _
      · rcases ih h with h | h
        · left; exact h
        · right; exact List.mem_cons_of_mem _ h

theorem alookup_aset_self {κ β : Type} [BEq κ] [LawfulBEq κ] :
    ∀ (m : List (κ × β)) (k : κ) (v : β), alookup (aset m k v) k = some v := by
  intro m
  induction m with
  | nil => intro k v; simp [aset, alookup]
  | cons p rest ih =>
    intro k v
    rw [aset]
    by_cases hb : p.1 == k
    · rw [if_pos hb, alookup, if_pos (by simp)]
    · rw [if_neg hb, alookup, if_neg hb]
      exact ih k v

/-- Entries of an in-place update whose key was present carry either the new
value at the updated key, or an untouched old entry: used for the
coverage-monotonicity of deduplication. -/
theorem aset_covers_of_covers {k : String} :
    ∀ {m : List (String × List Nat)} {lst : List Nat} {j i : Nat},
      alookup m k = some lst → (∃ e ∈ m, i ∈ e.2) →
      ∃ e ∈ aset m k (lst ++ [j]), i ∈ e.2 := by
  intro m
  induction m with
  | nil => intro lst j i h; simp [alookup] at h
  | cons p rest ih =>
    intro lst j i h hc
    rw [alookup] at h
    rw [aset]
    by_cases hb : p.1 == k
    · rw [if_pos hb] at *
      have hlst : p.2 = lst := by simpa using h
      rcases hc with ⟨e, he, hie⟩
      rcases List.mem_cons.1 he with rfl | he'
      · exact ⟨(k, lst ++ [j]), List.mem_cons_self _ _,
          List.mem_append_left _ (hlst ▸ hie)⟩
      · exact ⟨e, List.mem_cons_of_mem _ he', hie⟩
    · rw [if_neg hb] at *
      rcases hc with ⟨e, he, hie⟩
      rcases List.mem_cons.1 he with rfl | he'
      · exact ⟨e, List.mem_cons_self _ _, hie⟩
      · rcases ih h ⟨e, he', hie⟩ with ⟨e', he', hie'⟩
        exact ⟨e', List.mem_cons_of_mem _ he', hie'⟩

/-- If every entry of `ct` maps a key to itself, looking up `k` with default
`k` yields `k`. -/
theorem alookup_getD_self {ct : List (String × String)} {k : String}
    (h : ∀ p ∈ ct, p.2 = p.1) : (alookup ct k).getD k = k := by
  induction ct with
  | nil => simp [alookup]
  | cons p rest ih =>
    rw [alookup]
    by_cases hb : p.1 == k
    · rw [if_pos hb]
      have h1 : p.1 = k := by simpa using hb
      simp [h p (List.mem_cons_self _ _), h1]
    · rw [if_neg hb]
      exact ih (fun q hq => h q (List.mem_cons_of_mem _ hq))

/-! ## Helper lemmas about the fold behind `max(scores, key=scores.get)` -/

theorem foldMax_mem :
    ∀ (l : List (BatchStrategy × ℚ)) (p : BatchStrategy × ℚ),
      l.foldl pickBetter p = p ∨ l.foldl pickBetter p ∈ l := by
  intro l
  induction l with
  | nil => intro p; left; rfl
  | cons q rest ih =>
    intro p
    rw [List.foldl_cons]
    rcases ih (pickBetter p q) with h | h
    · rw [h]
      unfold pickBetter
      by_cases hq : q.2 > p.2
      · right; rw [if_pos hq]; exact List.mem_cons_self _ _
      · left; rw [if_neg hq]
    · right; exact List.mem_cons_of_mem _ h

theorem foldMax_ge :
    ∀ (l : List (BatchStrategy × ℚ)) (p : BatchStrategy × ℚ),
      p.2 ≤ (l.foldl pickBetter p).2 ∧ ∀ q ∈ l, q.2 ≤ (l.foldl pickBetter p).2 := by
  intro l
  induction l with
  | nil => intro p; exact ⟨le_refl _, by simp⟩
  | cons q rest ih =>
    intro p
    rw [List.foldl_cons]
    rcases ih (pickBetter p q) with ⟨h1, h2⟩
    have hpq : p.2 ≤ (pickBetter p q).2 ∧ q.2 ≤ (pickBetter p q).2 := by
      unfold pickBetter
      by_cases hq : q.2 > p.2
      · rw [if_pos hq]; exact ⟨le_of_lt hq, le_refl _⟩
      · rw [if_neg hq]; exact ⟨le_refl _, le_of_not_lt hq⟩
    refine ⟨le_trans hpq.1 h1, ?_⟩
    intro r hr
    rcases List.mem_cons.1 hr with rfl | hr'
    · exact le_trans hpq.2 h1
    · exact h2 r hr'

/-! ## Helper lemmas about deduplication -/

theorem dedupStep_eq (acc : List Seg × List (String × List Nat)) (q : Nat × Seg) :
    dedupStep acc q =
      match alookup acc.2 (pyStrip q.2.text) with
      | none => (acc.1 ++ [q.2], acc.2 ++ [(pyStrip q.2.text, [q.1])])
      | some lst => (acc.1, aset acc.2 (pyStrip q.2.text) (lst ++ [q.1])) := rfl

/-- Every index recorded in the dedup map is in range and belongs to the
entry keyed by its own stripped text. -/
theorem dedup_fold_keysOk (segments : List Seg) :
    ∀ (l : List (Nat × Seg)) (acc : List Seg × List (String × List Nat)),
      (∀ q ∈ l, q.1 < segments.length ∧ segments.getD q.1 defaultSeg = q.2) →
      (∀ e ∈ acc.2, ∀ i ∈ e.2, i < segments.length ∧
          pyStrip (segments.getD i defaultSeg).text = e.1) →
      ∀ e ∈ (l.foldl dedupStep acc).2, ∀ i ∈ e.2, i < segments.length ∧
          pyStrip (segments.getD i defaultSeg).text = e.1 := by
  intro l
  induction l with
  | nil => intro acc _ hacc; exact hacc
  | cons q rest ih =>
    intro acc hl hacc
    rw [List.foldl_cons]
    apply ih
    · intro r hr; exact hl r (List.mem_cons_of_mem _ hr)
    · intro e he i hie
      have hq := hl q (List.mem_cons_self _ _)
      rw [dedupStep_eq] at he
      split at he
      · rename_i hfind
        rcases List.mem_append.1 he with he' | he'
        · exact hacc e he' i hie
        · have he'' : e = (pyStrip q.2.text, [q.1]) := by simpa using he'
          subst he''
          have : i = q.1 := by simpa using hie
          subst this
          exact ⟨hq.1, by rw [hq.2]⟩
      · rename_i lst hfind
        rcases mem_aset_of_mem he with he' | he'
        · subst he'
          rcases List.mem_append.1 hie with hil | hil
          · exact hacc _ (alookup_some_mem hfind) i hil
          · have : i = q.1 := by simpa using hil
            subst this
            exact ⟨hq.1, by rw [hq.2]⟩
        · exact hacc e he' i hie

/-- Every index fed to the dedup fold ends up covered by some map entry. -/
theorem dedup_fold_covers :
    ∀ (l : List (Nat × Seg)) (acc : List Seg × List (String × List Nat)) (i : Nat),
      ((∃ seg, (i, seg) ∈ l) ∨ ∃ e ∈ acc.2, i ∈ e.2) →
      ∃ e ∈ (l.foldl dedupStep acc).2, i ∈ e.2 := by
  intro l
  induction l with
  | nil =>
    intro acc i h
    rcases h with ⟨seg, hs⟩ | h
    · simp at hs
    · exact h
  | cons q rest ih =>
    intro acc i h
    rw [List.foldl_cons]
    apply ih
    rcases h with ⟨seg, hs⟩ | h
    · rcases List.mem_cons.1 hs with hqs | hs'
      · right
        rw [dedupStep_eq]
        split
        · rename_i hfind
          refine ⟨(pyStrip q.2.text, [q.1]), by simp, ?_⟩
          have : i = q.1 := by rw [← hqs]
          simp [this]
        · rename_i lst hfind
          refine ⟨(pyStrip q.2.text, lst ++ [q.1]), mem_aset_self _ _ _, ?_⟩
          have : i = q.1 := by rw [← hqs]
          simp [this]
      · left; exact ⟨seg, hs'⟩
    · right
      rw [dedupStep_eq]
      split
      · rcases h with ⟨e, he, hie⟩
        exact ⟨e, List.mem_append_left _ he, hie⟩
      · rename_i lst hfind
        exact aset_covers_of_covers hfind h

/-- Unique segments are drawn from the input list. -/
theorem dedup_fold_fst_subset :
    ∀ (l : List (Nat × Seg)) (acc : List Seg × List (String × List Nat)),
      ∀ u ∈ (l.foldl dedupStep acc).1, u ∈ acc.1 ∨ ∃ q ∈ l, q.2 = u := by
  intro l
  induction l with
  | nil => intro acc u hu; left; exact hu
  | cons q rest ih =>
    intro acc u hu
    rw [List.foldl_cons] at hu
    rcases ih _ u hu with hu' | hu'
    · rw [dedupStep_eq] at hu'
      split at hu'
      · rcases List.mem_append.1 hu' with h | h
        · left; exact h
        · right
          exact ⟨q, List.mem_cons_self _ _, (by simpa using h : u = q.2).symm⟩
      · left; exact hu'
    · rcases hu' with ⟨r, hr, hru⟩
      right
      exact ⟨r, List.mem_cons_of_mem _ hr, hru⟩

/-! ## Helper lemmas about result reconstruction (STEP 4) -/

theorem foldl_set_length (f : Nat → Option Seg) :
    ∀ (is : List Nat) (r : List (Option Seg)),
      (is.foldl (fun r idx => r.set idx (f idx)) r).length = r.length := by
  intro is
  induction is with
  | nil => intro r; rfl
  | cons i rest ih => intro r; rw [List.foldl_cons, ih, List.length_set]

theorem foldl_set_getElem?_not_mem (f : Nat → Option Seg) :
    ∀ (is : List Nat) (r : List (Option Seg)) (j : Nat), j ∉ is →
      (is.foldl (fun r idx => r.set idx (f idx)) r)[j]? = r[j]? := by
  intro is
  induction is with
  | nil => intro r j _; rfl
  | cons i rest ih =>
    intro r j hj
    rw [List.foldl_cons, ih _ _ (fun h => hj (List.mem_cons_of_mem _ h)),
      List.getElem?_set_ne (fun h => hj (by rw [← h]; exact List.mem_cons_self _ _))]

theorem foldl_set_getElem?_mem (f : Nat → Option Seg) :
    ∀ (is : List Nat) (r : List (Option Seg)) (j : Nat), j ∈ is → j < r.length →
      (is.foldl (fun r idx => r.set idx (f idx)) r)[j]? = some (f j) := by
  intro is
  induction is with
  | nil => intro r j hj; simp at hj
  | cons i rest ih =>
    intro r j hj hlen
    rw [List.foldl_cons]
    by_cases hjr : j ∈ rest
    · exact ih _ j hjr (by rw [List.length_set]; exact hlen)
    · have hji : j = i := by
        rcases List.mem_cons.1 hj with h | h
        · exact h
        · exact absurd h hjr
      subst hji
      rw [foldl_set_getElem?_not_mem _ _ _ _ hjr, List.getElem?_set_self hlen]

theorem fillEntry_length (segments : List Seg) (ct : List (String × String))
    (r : List (Option Seg)) (e : String × List Nat) :
    (fillEntry segments ct r e).length = r.length :=
  foldl_set_length _ e.2 r

/-- The reconstruction fold: lengths are preserved, already-written target
values persist, and an index covered by the map ends up holding its target
value (segment `start`/`stop` with the looked-up translation). -/
theorem fillFold_spec (segments : List Seg) (ct : List (String × String)) :
    ∀ (m : List (String × List Nat)) (r : List (Option Seg)),
      r.length = segments.length →
      (∀ e ∈ m, ∀ i ∈ e.2, i < segments.length ∧
          pyStrip (segments.getD i defaultSeg).text = e.1) →
      (m.foldl (fillEntry segments ct) r).length = segments.length ∧
      (∀ j, j < segments.length →
        r[j]? = some (some { start := (segments.getD j defaultSeg).start,
                             stop := (segments.getD j defaultSeg).stop,
                             text := (alookup ct (pyStrip (segments.getD j defaultSeg).text)).getD
                                       (pyStrip (segments.getD j defaultSeg).text) }) →
        (m.foldl (fillEntry segments ct) r)[j]? =
          some (some { start := (segments.getD j defaultSeg).start,
                       stop := (segments.getD j defaultSeg).stop,
                       text := (alookup ct (pyStrip (segments.getD j defaultSeg).text)).getD
                                 (pyStrip (segments.getD j defaultSeg).text) })) ∧
      (∀ j, j < segments.length → (∃ e ∈ m, j ∈ e.2) →
        (m.foldl (fillEntry segments ct) r)[j]? =
          some (some { start := (segments.getD j defaultSeg).start,
                       stop := (segments.getD j defaultSeg).stop,
                       text := (alookup ct (pyStrip (segments.getD j defaultSeg).text)).getD
                                 (pyStrip (segments.getD j defaultSeg).text) })) := by
  intro m
  induction m with
  | nil =>
    intro r hr _
    refine ⟨hr, fun j _ h => h, fun j _ hj => ?_⟩
    rcases hj with ⟨e, he, _⟩
    simp at he
  | cons e rest ih =>
    intro r hr hkeys
    rw [List.foldl_cons]
    have hr' : (fillEntry segments ct r e).length = segments.length := by
      rw [fillEntry_length]; exact hr
    have hkeys' : ∀ e' ∈ rest, ∀ i ∈ e'.2, i < segments.length ∧
        pyStrip (segments.getD i defaultSeg).text = e'.1 :=
      fun e' he' => hkeys e' (List.mem_cons_of_mem _ he')
    have hwrite : ∀ j, j ∈ e.2 →
        (fillEntry segments ct r e)[j]? =
          some (some { start := (segments.getD j defaultSeg).start,
                       stop := (segments.getD j defaultSeg).stop,
                       text := (alookup ct (pyStrip (segments.getD j defaultSeg).text)).getD
                                 (pyStrip (segments.getD j defaultSeg).text) }) := by
      intro j hj
      have hk := hkeys e (List.mem_cons_self _ _) j hj
      have := foldl_set_getElem?_mem
        (fun idx => some { start := (segments.getD idx defaultSeg).start,
                           stop := (segments.getD idx defaultSeg).stop,
                           text := (alookup ct e.1).getD e.1 })
        e.2 r j hj (by rw [hr]; exact hk.1)
      rw [show (fillEntry segments ct r e) =
          e.2.foldl (fun r idx => r.set idx
            (some { start := (segments.getD idx defaultSeg).start,
                    stop := (segments.getD idx defaultSeg).stop,
                    text := (alookup ct e.1).getD e.1 })) r from rfl, this, hk.2]
    have hkeep : ∀ j, j ∉ e.2 → (fillEntry segments ct r e)[j]? = r[j]? := by
      intro j hj
      exact foldl_set_getElem?_not_mem _ e.2 r j hj
    rcases ih (fillEntry segments ct r e) hr' hkeys' with ⟨ihl, ihp, ihc⟩
    refine ⟨ihl, ?_, ?_⟩
    · intro j hjN hrj
      apply ihp j hjN
      by_cases hje : j ∈ e.2
      · exact hwrite j hje
      · rw [hkeep j hje]; exact hrj
    · intro j hjN hcov
      rcases hcov with ⟨e', he', hje'⟩
      rcases List.mem_cons.1 he' with rfl | he''
      · exact ihp j hjN (hwrite j hje')
      · exact ihc j hjN ⟨e', he'', hje'⟩

/-- STEP-4 reconstruction: the filled result has one entry per input index,
holding the input's `start`/`stop` and the translation looked up for the
input's stripped text (default: the stripped text itself). -/
theorem fill_spec (segments : List Seg) (ct : List (String × String)) :
    (fillResult segments (deduplicate_segments segments).2 ct).length = segments.length ∧
    ∀ j, j < segments.length →
      (fillResult segments (deduplicate_segments segments).2 ct)[j]? =
        some (some { start := (segments.getD j defaultSeg).start,
                     stop := (segments.getD j defaultSeg).stop,
                     text := (alookup ct (pyStrip (segments.getD j defaultSeg).text)).getD
                               (pyStrip (segments.getD j defaultSeg).text) }) := by
  have henum : ∀ q ∈ segments.enum, q.1 < segments.length ∧
      segments.getD q.1 defaultSeg = q.2 := by
    intro q hq
    rcases q with ⟨i, seg⟩
    rw [List.mk_mem_enum_iff_getElem?] at hq
    rcases List.getElem?_eq_some_iff.1 hq with ⟨hi, hv⟩
    exact ⟨hi, by rw [List.getD_eq_getElem?_getD, hq]; rfl⟩
  have hkeys := dedup_fold_keysOk segments segments.enum ([], []) henum
    (by intro e he; simp at he)
  have hcov : ∀ j, j < segments.length →
      ∃ e ∈ (deduplicate_segments segments).2, j ∈ e.2 := by
    intro j hj
    apply dedup_fold_covers segments.enum ([], []) j
    left
    exact ⟨segments[j], by rw [List.mk_mem_enum_iff_getElem?, List.getElem?_eq_some_iff]; exact ⟨hj, rfl⟩⟩
  rcases fillFold_spec segments ct (deduplicate_segments segments).2
      (List.replicate segments.length none) (by simp) hkeys with ⟨hl, _, hc⟩
  exact ⟨hl, fun j hj => hc j hj (hcov j hj)⟩

/-! ## Helper lemmas about `translate_segments` -/

theorem translate_segments_nil (env : Env) (st : ServiceState) (s t : String) :
    translate_segments env st [] s t = (st, .ok []) := by
  simp [translate_segments]

theorem translate_segments_id (env : Env) (st : ServiceState) (segs : List Seg) (L : String) :
    translate_segments env st segs L L = (st, .ok segs) := by
  cases segs with
  | nil => simp [translate_segments]
  | cons g rest => simp [translate_segments]

theorem translate_segments_unsupported (env : Env) (st : ServiceState) (segs : List Seg)
    (s t : String) (h1 : segs ≠ []) (h2 : s ≠ t)
    (h3 : supported_languages.contains t = false) :
    translate_segments env st segs s t =
      (st, .error ("Unsupported target language: " ++ t)) := by
  rw [translate_segments, if_neg h1, if_neg h2, if_pos (by rw [h3]; simp)]

theorem translate_segments_main_shape (env : Env) (st : ServiceState) (segs : List Seg)
    (s t : String) (h1 : segs ≠ []) (h2 : s ≠ t)
    (h3 : supported_languages.contains t = true) :
    ∃ st' ct, translate_segments env st segs s t =
      (st', .ok ((fillResult segs (deduplicate_segments segs).2 ct).map
                   (fun o => o.getD defaultSeg))) := by
  rw [translate_segments, if_neg h1, if_neg h2, if_neg (by rw [h3]; simp)]
  exact ⟨_, _, rfl⟩

theorem translate_segments_ok_or_unsupported (env : Env) (st : ServiceState)
    (segs : List Seg) (s t : String) (h3 : supported_languages.contains t = true) :
    ∃ res, (translate_segments env st segs s t).2 = .ok res := by
  by_cases h1 : segs = []
  · subst h1; rw [translate_segments_nil]; exact ⟨[], rfl⟩
  · by_cases h2 : s = t
    · subst h2; rw [translate_segments_id]; exact ⟨segs, rfl⟩
    · rcases translate_segments_main_shape env st segs s t h1 h2 h3 with ⟨st', ct, heq⟩
      rw [heq]
      exact ⟨_, rfl⟩

/-- The only raised error is the unsupported-target `ValueError`, and it is
raised exactly when the two fast paths do not apply and the target language
is outside the catalog. -/
theorem translate_segments_error_iff (env : Env) (st : ServiceState) (segs : List Seg)
    (s t : String) :
    (∃ msg, (translate_segments env st segs s t).2 = .error msg) ↔
      segs ≠ [] ∧ s ≠ t ∧ supported_languages.contains t = false := by
  constructor
  · rintro ⟨msg, hmsg⟩
    by_cases h1 : segs = []
    · subst h1; rw [translate_segments_nil] at hmsg; simp at hmsg
    · by_cases h2 : s = t
      · subst h2; rw [translate_segments_id] at hmsg; simp at hmsg
      · by_cases h3 : supported_languages.contains t = true
        · rcases translate_segments_main_shape env st segs s t h1 h2 h3 with ⟨st', ct, heq⟩
          rw [heq] at hmsg; simp at hmsg
        · exact ⟨h1, h2, by simpa using h3⟩
  · rintro ⟨h1, h2, h3⟩
    rw [translate_segments_unsupported env st segs s t h1 h2 h3]
    exact ⟨_, rfl⟩

/-- Whenever `translate_segments` returns, the result pairs up with the
input: same length, `start`/`end` preserved at every index. -/
theorem translate_segments_ok_shape (env : Env) (st : ServiceState) (segs : List Seg)
    (s t : String) (res : List Seg)
    (h : (translate_segments env st segs s t).2 = .ok res) :
    res.length = segs.length ∧
    ∀ j, j < segs.length →
      (res.getD j defaultSeg).start = (segs.getD j defaultSeg).start ∧
      (res.getD j defaultSeg).stop = (segs.getD j defaultSeg).stop := by
  by_cases h1 : segs = []
  · subst h1
    rw [translate_segments_nil] at h
    simp at h
    subst h
    exact ⟨rfl, by intro j hj; simp at hj⟩
  · by_cases h2 : s = t
    · subst h2
      rw [translate_segments_id] at h
      simp at h
      subst h
      exact ⟨rfl, fun j _ => ⟨rfl, rfl⟩⟩
    · by_cases h3 : supported_languages.contains t = true
      · rcases translate_segments_main_shape env st segs s t h1 h2 h3 with ⟨st', ct, heq⟩
        rw [heq] at h
        simp only [Except.ok.injEq] at h
        subst h
        constructor
        · rw [List.length_map, (fill_spec segs ct).1]
        · intro j hj
          have hfj := (fill_spec segs ct).2 j hj
          rw [List.getD_eq_getElem?_getD, List.getElem?_map, hfj]
          exact ⟨rfl, rfl⟩
      · rw [translate_segments_unsupported env st segs s t h1 h2
            (by simpa using h3)] at h
        simp at h

/-! ## Helper lemmas about the circuit breaker -/

theorem cb_on_failure_eq (cb : CircuitBreaker) (now : ℚ) :
    cb.on_failure now =
      if cb.failure_count + 1 ≥ cb.failure_threshold then
        { cb with failure_count := cb.failure_count + 1,
                  last_failure_time := some now, state := .open' }
      else
        { cb with failure_count := cb.failure_count + 1,
                  last_failure_time := some now } := rfl

theorem cb_on_success_eq (cb : CircuitBreaker) :
    cb.on_success =
      if cb.state = .half_open then
        { cb with failure_count := 0, state := .closed }
      else { cb with failure_count := 0 } := rfl

theorem cb_call_eq (cb : CircuitBreaker) (now : ℚ) (func : Option α) :
    cb.call now func =
      if (cb.guard now).2 = true then
        match func with
        | some a => ((cb.guard now).1.on_success, .success a)
        | none => ((cb.guard now).1.on_failure now, .failure)
      else ((cb.guard now).1, .rejected) := rfl

theorem cb_guard_not_open (cb : CircuitBreaker) (now : ℚ) (h : cb.state ≠ .open') :
    cb.guard now = (cb, true) := by
  rw [CircuitBreaker.guard, if_neg h]

theorem cb_guard_open_lt (cb : CircuitBreaker) (now t₀ : ℚ)
    (hs : cb.state = .open') (hl : cb.last_failure_time = some t₀)
    (ht : now - t₀ < cb.recovery_timeout) : cb.guard now = (cb, false) := by
  rw [CircuitBreaker.guard, if_pos hs, hl]
  rw [if_neg (by simp only [Option.getD_some]; exact not_le.2 ht)]

theorem cb_guard_open_ge (cb : CircuitBreaker) (now t₀ : ℚ)
    (hs : cb.state = .open') (hl : cb.last_failure_time = some t₀)
    (ht : cb.recovery_timeout ≤ now - t₀) :
    cb.guard now = ({ cb with state := .half_open }, true) := by
  rw [CircuitBreaker.guard, if_pos hs, hl]
  rw [if_pos (by simp only [Option.getD_some]; exact ht)]

theorem cb_call_not_open_failure (cb : CircuitBreaker) (now : ℚ)
    (h : cb.state ≠ .open') :
    (cb.call now (none : Option Unit)).2 = .failure ∧
    (cb.call now (none : Option Unit)).1.failure_count = cb.failure_count + 1 ∧
    (cb.call now (none : Option Unit)).1.last_failure_time = some now ∧
    (cb.failure_threshold ≤ cb.failure_count + 1 →
      (cb.call now (none : Option Unit)).1.state = .open') ∧
    (cb.failure_count + 1 < cb.failure_threshold →
      (cb.call now (none : Option Unit)).1.state = cb.state) := by
  rw [cb_call_eq, cb_guard_not_open cb now h]
  dsimp only
  rw [cb_on_failure_eq]
  by_cases hth : cb.failure_count + 1 ≥ cb.failure_threshold
  · rw [if_pos hth]
    exact ⟨rfl, rfl, rfl, fun _ => rfl, fun hlt => absurd hth (by omega)⟩
  · rw [if_neg hth]
    exact ⟨rfl, rfl, rfl, fun hge => absurd hge hth, fun _ => rfl⟩

theorem cb_call_open_rejected (cb : CircuitBreaker) (now t₀ : ℚ) (f : Option Unit)
    (hs : cb.state = .open') (hl : cb.last_failure_time = some t₀)
    (ht : now - t₀ < cb.recovery_timeout) :
    cb.call now f = (cb, .rejected) := by
  rw [cb_call_eq, cb_guard_open_lt cb now t₀ hs hl ht]
  rfl

theorem cb_call_open_elapsed (cb : CircuitBreaker) (now t₀ : ℚ) (f : Option Unit)
    (hs : cb.state = .open') (hl : cb.last_failure_time = some t₀)
    (ht : cb.recovery_timeout ≤ now - t₀) :
    (cb.call now f).2 ≠ .rejected := by
  rw [cb_call_eq, cb_guard_open_ge cb now t₀ hs hl ht]
  cases f with
  | some a => intro hc; cases hc
  | none => intro hc; cases hc

theorem cb_call_success (cb : CircuitBreaker) (now : ℚ) (a : Unit)
    (h : cb.state ≠ .open') :
    (cb.call now (some a)).1.failure_count = 0 ∧
    (cb.state = .half_open → (cb.call now (some a)).1.state = .closed) ∧
    (cb.state = .closed → (cb.call now (some a)).1.state = .closed) := by
  rw [cb_call_eq, cb_guard_not_open cb now h]
  dsimp only
  rw [cb_on_success_eq]
  by_cases hh : cb.state = .half_open
  · rw [if_pos hh]
    exact ⟨rfl, fun _ => rfl, fun _ => rfl⟩
  · rw [if_neg hh]
    exact ⟨rfl, fun hc => absurd hc hh, fun hc => hc⟩

theorem cb_call_open_elapsed_failure (cb : CircuitBreaker) (now t₀ : ℚ)
    (hs : cb.state = .open') (hl : cb.last_failure_time = some t₀)
    (ht : cb.recovery_timeout ≤ now - t₀)
    (hth : cb.failure_threshold ≤ cb.failure_count + 1) :
    (cb.call now (none : Option Unit)).1.state = .open' ∧
    (cb.call now (none : Option Unit)).1.last_failure_time = some now := by
  rw [cb_call_eq, cb_guard_open_ge cb now t₀ hs hl ht]
  dsimp only
  rw [cb_on_failure_eq]
  rw [if_pos (show _ + 1 ≥ _ from hth)]
  exact ⟨rfl, rfl⟩

theorem cb_call_open_elapsed_success (cb : CircuitBreaker) (now t₀ : ℚ) (a : Unit)
    (hs : cb.state = .open') (hl : cb.last_failure_time = some t₀)
    (ht : cb.recovery_timeout ≤ now - t₀) :
    (cb.call now (some a)).1.state = .closed ∧
    (cb.call now (some a)).1.failure_count = 0 := by
  rw [cb_call_eq, cb_guard_open_ge cb now t₀ hs hl ht]
  dsimp only
  rw [cb_on_success_eq]
  rw [if_pos rfl]
  exact ⟨rfl, rfl⟩

/-- Reachability invariant: whenever the breaker is not CLOSED, its failure
count has reached the threshold. -/
theorem cb_reach_invariant : ∀ cb, CBReach cb →
    cb.state ≠ .closed → cb.failure_threshold ≤ cb.failure_count := by
  intro cb h
  induction h with
  | init threshold timeout => intro h; exact absurd rfl h
  | step cb now f _ ih =>
    intro hne
    by_cases ho : cb.state = .open'
    · by_cases he : cb.recovery_timeout ≤ now - cb.last_failure_time.getD 0
      · -- OPEN and elapsed: the breaker transitions to HALF_OPEN and attempts
        have hg : cb.guard now = ({ cb with state := .half_open }, true) := by
          rw [CircuitBreaker.guard, if_pos ho, if_pos he]
        rw [cb_call_eq, hg] at hne ⊢
        dsimp only at hne ⊢
        cases f with
        | some a =>
          rw [cb_on_success_eq] at hne ⊢
          rw [if_pos rfl] at hne ⊢
          exact absurd rfl hne
        | none =>
          rw [cb_on_failure_eq] at hne ⊢
          have hth : cb.failure_threshold ≤ cb.failure_count + 1 := by
            have := ih (by rw [ho]; intro hc; cases hc)
            omega
          rw [if_pos (show _ + 1 ≥ _ from hth)] at hne ⊢
          exact hth
      · -- OPEN, not elapsed: rejected, state unchanged
        have hg : cb.guard now = (cb, false) := by
          rw [CircuitBreaker.guard, if_pos ho, if_neg he]
        rw [cb_call_eq, hg] at hne ⊢
        dsimp only at hne ⊢
        exact ih hne
    · -- not OPEN: the call is attempted directly
      have hg : cb.guard now = (cb, true) := cb_guard_not_open cb now ho
      rw [cb_call_eq, hg] at hne ⊢
      dsimp only at hne ⊢
      cases f with
      | some a =>
        rw [cb_on_success_eq] at hne ⊢
        by_cases hh : cb.state = .half_open
        · rw [if_pos hh] at hne ⊢
          exact absurd rfl hne
        · rw [if_neg hh] at hne ⊢
          rcases hcb : cb.state with _ | _ | _
          · exact absurd hcb hne
          · exact absurd hcb ho
          · exact absurd hcb hh
      | none =>
        rw [cb_on_failure_eq] at hne ⊢
        by_cases hth : cb.failure_count + 1 ≥ cb.failure_threshold
        · rw [if_pos hth] at hne ⊢
          exact hth
        · rw [if_neg hth] at hne ⊢
          have := ih hne
          omega

/-! ## Helper lemmas about the strategy selector -/

theorem maxByScore_cons_spec (sel : StrategySelector) (s t : String)
    (c0 : BatchStrategy) (cs : List BatchStrategy) :
    maxByScore ((c0 :: cs).map (fun c => (c, sel.scoreOf s t c))) ∈ c0 :: cs ∧
    ∀ c ∈ c0 :: cs, sel.scoreOf s t c ≤
      sel.scoreOf s t (maxByScore ((c0 :: cs).map (fun c => (c, sel.scoreOf s t c)))) := by
  have hmax : maxByScore ((c0 :: cs).map (fun c => (c, sel.scoreOf s t c))) =
      ((cs.map (fun c => (c, sel.scoreOf s t c))).foldl pickBetter
        (c0, sel.scoreOf s t c0)).1 := rfl
  have hmem := foldMax_mem (cs.map (fun c => (c, sel.scoreOf s t c)))
    (c0, sel.scoreOf s t c0)
  have hge := foldMax_ge (cs.map (fun c => (c, sel.scoreOf s t c)))
    (c0, sel.scoreOf s t c0)
  have hsnd : ((cs.map (fun c => (c, sel.scoreOf s t c))).foldl pickBetter
      (c0, sel.scoreOf s t c0)).2 =
      sel.scoreOf s t ((cs.map (fun c => (c, sel.scoreOf s t c))).foldl pickBetter
        (c0, sel.scoreOf s t c0)).1 := by
    rcases hmem with h | h
    · rw [h]
    · rcases List.mem_map.1 h with ⟨c, _, hc⟩
      rw [← hc]
  constructor
  · rw [hmax]
    rcases hmem with h | h
    · rw [h]; exact List.mem_cons_self _ _
    · rcases List.mem_map.1 h with ⟨c, hc, hfc⟩
      rw [← hfc]
      exact List.mem_cons_of_mem _ hc
  · intro c hc
    rw [hmax, ← hsnd]
    rcases List.mem_cons.1 hc with rfl | hc'
    · exact hge.1
    · exact hge.2 _ (List.mem_map_of_mem _ hc')

theorem get_best_strategy_spec_mem (sel : StrategySelector) (s t : String) (n : Nat)
    (hn : n ≠ 1) :
    sel.get_best_strategy s t n ∈
      (if n ≤ 5 then [BatchStrategy.delimiter, .individual]
       else [.json_array, .delimiter, .individual]) ∧
    ∀ c ∈ (if n ≤ 5 then [BatchStrategy.delimiter, .individual]
           else [.json_array, .delimiter, .individual]),
      sel.scoreOf s t c ≤ sel.scoreOf s t (sel.get_best_strategy s t n) := by
  rw [StrategySelector.get_best_strategy, if_neg hn]
  by_cases h5 : n ≤ 5
  · simp only [if_pos h5]
    exact maxByScore_cons_spec sel s t .delimiter [.individual]
  · simp only [if_neg h5]
    exact maxByScore_cons_spec sel s t .json_array [.delimiter, .individual]

/-- On a selector with no recorded metrics, the defaults always pick
`INDIVIDUAL` (0.9 beats 0.6 and 0.8). -/
theorem get_best_strategy_init (s t : String) (n : Nat) :
    StrategySelector.init.get_best_strategy s t n = .individual := by
  rw [StrategySelector.get_best_strategy]
  by_cases h1 : n = 1
  · rw [if_pos h1]
  · rw [if_neg h1]
    by_cases h5 : n ≤ 5
    · rw [if_pos h5]
      show maxByScore [(BatchStrategy.delimiter, StrategySelector.init.scoreOf s t .delimiter),
        (BatchStrategy.individual, StrategySelector.init.scoreOf s t .individual)] = _
      rw [show StrategySelector.init.scoreOf s t .delimiter = 6/10 from rfl,
          show StrategySelector.init.scoreOf s t .individual = 9/10 from rfl]
      rw [maxByScore]
      norm_num [pickBetter]
    · rw [if_neg h5]
      show maxByScore [(BatchStrategy.json_array, StrategySelector.init.scoreOf s t .json_array),
        (BatchStrategy.delimiter, StrategySelector.init.scoreOf s t .delimiter),
        (BatchStrategy.individual, StrategySelector.init.scoreOf s t .individual)] = _
      rw [show StrategySelector.init.scoreOf s t .json_array = 8/10 from rfl,
          show StrategySelector.init.scoreOf s t .delimiter = 6/10 from rfl,
          show StrategySelector.init.scoreOf s t .individual = 9/10 from rfl]
      rw [maxByScore]
      norm_num [pickBetter]

/-! ## Helper lemma about metrics -/

/-- For `attempts ≥ 3` the source's reliability score coincides with the
specification's formula. -/
theorem reliability_score_eq_spec (m : BatchMetrics) (h : 3 ≤ m.attempts) :
    m.reliability_score = specReliabilityScore m := by
  rw [BatchMetrics.reliability_score, if_neg (by omega), BatchMetrics.success_rate,
    if_pos (by omega), specReliabilityScore]

/-! ## Helper lemmas about the cache and the failing remote path -/

theorem readClock_eq (env : Env) (st : ServiceState) :
    readClock env st = ({ st with ticks := st.ticks + 1 }, env.clock st.ticks) := rfl

theorem cache_get_eq (c : TranslationCache) (text s t : String) :
    c.get text s t =
      match alookup c.entries (fingerprint text s t) with
      | some v =>
          (some v,
           { c with
               hits := c.hits + 1,
               entries := eraseEntry c.entries (fingerprint text s t) ++
                 [(fingerprint text s t, v)] })
      | none => (none, { c with misses := c.misses + 1 }) := rfl

theorem cache_get_miss (c : TranslationCache) (text s t : String)
    (h : alookup c.entries (fingerprint text s t) = none) :
    c.get text s t = (none, { c with misses := c.misses + 1 }) := by
  rw [cache_get_eq, h]

theorem cache_get_hit (c : TranslationCache) (text s t : String) (v : String)
    (h : alookup c.entries (fingerprint text s t) = some v) :
    c.get text s t =
      (some v,
       { c with
           hits := c.hits + 1,
           entries := eraseEntry c.entries (fingerprint text s t) ++
             [(fingerprint text s t, v)] }) := by
  rw [cache_get_eq, h]

theorem cache_set_eq (c : TranslationCache) (text s t v : String) :
    c.set text s t v =
      { c with entries :=
          if (eraseEntry c.entries (fingerprint text s t) ++
              [(fingerprint text s t, v)]).length > c.max_size then
            (eraseEntry c.entries (fingerprint text s t) ++
              [(fingerprint text s t, v)]).drop 1
          else eraseEntry c.entries (fingerprint text s t) ++
            [(fingerprint text s t, v)] } := rfl

theorem uncached_eq (env : Env) (st : ServiceState) (text s t : String) :
    translate_single_uncached env st text s t =
      (if text = "" ∨ pyStrip text = "" then (st, some text)
       else if s = t then (st, some text)
       else match env.remote st.calls text with
         | some r => if pyStrip r = "" then ({ st with calls := st.calls + 1 }, none)
                     else ({ st with calls := st.calls + 1 }, some (pyStrip r))
         | none => ({ st with calls := st.calls + 1 }, none)) := rfl

theorem uncached_fail (env : Env) (st : ServiceState) (text s t : String)
    (h0 : ¬(text = "" ∨ pyStrip text = "")) (hst : s ≠ t)
    (hre : env.remote st.calls text = none) :
    translate_single_uncached env st text s t = ({ st with calls := st.calls + 1 }, none) := by
  rw [uncached_eq, if_neg h0, if_neg hst, hre]

theorem translate_single_eq (env : Env) (st : ServiceState) (text s t : String) :
    translate_single env st text s t =
      (match (st.cache.get text s t).1 with
       | some cached => ({ st with cache := (st.cache.get text s t).2 }, cached)
       | none =>
         let st0 : ServiceState := { st with cache := (st.cache.get text s t).2 }
         let pre : ServiceState × Bool :=
           if st0.breaker.state = .open' then
             let r := readClock env st0
             if r.2 - st0.breaker.last_failure_time.getD 0 ≥ st0.breaker.recovery_timeout then
               ({ r.1 with breaker := { r.1.breaker with state := .half_open } }, true)
             else (r.1, false)
           else (st0, true)
         if pre.2 then
           let u := translate_single_uncached env pre.1 text s t
           match u.2 with
           | some translated =>
               ({ u.1 with breaker := u.1.breaker.on_success,
                           cache := ({ u.1 with breaker := u.1.breaker.on_success }).cache.set
                             text s t translated }, translated)
           | none =>
               ({ (readClock env u.1).1 with
                   breaker := (readClock env u.1).1.breaker.on_failure (readClock env u.1).2 },
                text)
         else (pre.1, text)) := rfl

/-- A cache miss followed by a failing (or rejected) remote call returns the
original text and writes nothing into the cache. -/
theorem translate_single_fail (env : Env) (st : ServiceState) (text s t : String)
    (hmiss : alookup st.cache.entries (fingerprint text s t) = none)
    (hst : s ≠ t) (h0 : text ≠ "") (h1 : pyStrip text ≠ "")
    (hre : ∀ k, env.remote k text = none) :
    (translate_single env st text s t).2 = text ∧
    (translate_single env st text s t).1.cache.entries = st.cache.entries := by
  rw [translate_single_eq, cache_get_miss st.cache text s t hmiss]
  dsimp only
  by_cases hbo : st.breaker.state = .open'
  · rw [if_pos hbo]
    by_cases hel : (readClock env { st with cache := { st.cache with misses := st.cache.misses + 1 } }).2 -
        st.breaker.last_failure_time.getD 0 ≥ st.breaker.recovery_timeout
    · rw [if_pos hel]
      dsimp only
      rw [uncached_fail env _ text s t (by push_neg; exact ⟨h0, h1⟩) hst (hre _)]
      dsimp only
      exact ⟨rfl, rfl⟩
    · rw [if_neg hel]
      dsimp only
      exact ⟨rfl, rfl⟩
  · rw [if_neg hbo]
    dsimp only
    rw [uncached_fail env _ text s t (by push_neg; exact ⟨h0, h1⟩) hst (hre _)]
    dsimp only
    exact ⟨rfl, rfl⟩

/-- The STEP-3 individual fold under a dead remote and an empty cache:
every segment comes back with its stripped original text, and the cache
stays empty. -/
theorem indiv_fold_fail (env : Env) (s t : String)
    (hre : ∀ k q, env.remote k q = none) (hst : s ≠ t) :
    ∀ (l : List Seg) (st : ServiceState) (acc : List Seg),
      st.cache.entries = [] →
      (∀ g ∈ l, pyStrip g.text ≠ "") →
      (l.foldl (fun acc seg =>
          let t' := translate_single env acc.1 (pyStrip seg.text) s t
          (t'.1, acc.2 ++ [{ start := seg.start, stop := seg.stop, text := t'.2 }]))
        (st, acc)).2 = acc ++ l.map (fun g => { g with text := pyStrip g.text }) ∧
      (l.foldl (fun acc seg =>
          let t' := translate_single env acc.1 (pyStrip seg.text) s t
          (t'.1, acc.2 ++ [{ start := seg.start, stop := seg.stop, text := t'.2 }]))
        (st, acc)).1.cache.entries = [] := by
  intro l
  induction l with
  | nil => intro st acc hc _; exact ⟨by simp, hc⟩
  | cons g rest ih =>
    intro st acc hc hstrip
    have hg := hstrip g (List.mem_cons_self _ _)
    have hsf := translate_single_fail env st (pyStrip g.text) s t
      (by rw [hc]; rfl) hst hg (by rw [pyStrip_idem]; exact hg) (fun k => hre k _)
    rw [List.foldl_cons]
    dsimp only
    rw [hsf.1]
    rcases ih (translate_single env st (pyStrip g.text) s t).1
      (acc ++ [{ start := g.start, stop := g.stop, text := pyStrip g.text }])
      (by rw [hsf.2]; exact hc) (fun q hq => hstrip q (List.mem_cons_of_mem _ hq)) with ⟨h1, h2⟩
    refine ⟨?_, h2⟩
    rw [h1, List.map_cons, List.append_assoc]
    rfl

theorem batch_individual_eq (env : Env) (st : ServiceState) (segments : List Seg)
    (s t : String) :
    translate_batch_individual env st segments s t =
      (let r0 := readClock env st
       let built := segments.foldl
         (fun acc seg =>
           let t' := translate_single env acc.1 (pyStrip seg.text) s t
           (t'.1, acc.2 ++ [{ start := seg.start, stop := seg.stop, text := t'.2 }]))
         (r0.1, ([] : List Seg))
       let r1 := readClock env built.1
       ({ r1.1 with selector :=
           r1.1.selector.record_attempt s t .individual true (r1.2 - r0.2) false },
        built.2)) := rfl

/-- `_translate_batch_individual` under a dead remote with an empty cache. -/
theorem batch_individual_fail (env : Env) (s t : String)
    (hre : ∀ k q, env.remote k q = none) (hst : s ≠ t)
    (l : List Seg) (st : ServiceState) (hc : st.cache.entries = [])
    (hstrip : ∀ g ∈ l, pyStrip g.text ≠ "") :
    (translate_batch_individual env st l s t).2 =
      l.map (fun g => { g with text := pyStrip g.text }) ∧
    (translate_batch_individual env st l s t).1.cache.entries = [] := by
  rw [batch_individual_eq]
  dsimp only
  rcases indiv_fold_fail env s t hre hst l (readClock env st).1 []
    (by rw [readClock_eq]; exact hc) hstrip with ⟨h1, h2⟩
  rw [h1]
  exact ⟨by simp, h2⟩

/-- Output length of the individual strategy always equals its input
length (for any environment and state). -/
theorem batch_individual_length (env : Env) (st : ServiceState) (l : List Seg)
    (s t : String) :
    (translate_batch_individual env st l s t).2.length = l.length := by
  rw [batch_individual_eq]
  dsimp only
  have : ∀ (l' : List Seg) (st' : ServiceState) (acc : List Seg),
      ((l'.foldl (fun acc seg =>
          let t' := translate_single env acc.1 (pyStrip seg.text) s t
          (t'.1, acc.2 ++ [{ start := seg.start, stop := seg.stop, text := t'.2 }]))
        (st', acc)).2).length = acc.length + l'.length := by
    intro l'
    induction l' with
    | nil => intro st' acc; simp
    | cons g rest ih =>
      intro st' acc
      rw [List.foldl_cons]
      dsimp only
      rw [ih]
      simp
      omega
  rw [this l (readClock env st).1 []]
  simp

/-- STEP 2 on an empty cache: everything misses, `to_translate` is the whole
unique list, the hit map is empty, and only the cache's miss counter moves. -/
theorem cacheLookup_empty (s t : String) :
    ∀ (l : List Seg) (st : ServiceState) (acc1 : List Seg) (acc2 : List (String × String)),
      st.cache.entries = [] →
      (l.foldl (fun acc seg =>
          let text := pyStrip seg.text
          let g := acc.1.cache.get text s t
          match g.1 with
          | some cached => ({ acc.1 with cache := g.2 }, acc.2.1, acc.2.2 ++ [(text, cached)])
          | none => ({ acc.1 with cache := g.2 }, acc.2.1 ++ [seg], acc.2.2))
        (st, acc1, acc2)).2.1 = acc1 ++ l ∧
      (l.foldl (fun acc seg =>
          let text := pyStrip seg.text
          let g := acc.1.cache.get text s t
          match g.1 with
          | some cached => ({ acc.1 with cache := g.2 }, acc.2.1, acc.2.2 ++ [(text, cached)])
          | none => ({ acc.1 with cache := g.2 }, acc.2.1 ++ [seg], acc.2.2))
        (st, acc1, acc2)).2.2 = acc2 ∧
      (l.foldl (fun acc seg =>
          let text := pyStrip seg.text
          let g := acc.1.cache.get text s t
          match g.1 with
          | some cached => ({ acc.1 with cache := g.2 }, acc.2.1, acc.2.2 ++ [(text, cached)])
          | none => ({ acc.1 with cache := g.2 }, acc.2.1 ++ [seg], acc.2.2))
        (st, acc1, acc2)).1.cache.entries = [] ∧
      (l.foldl (fun acc seg =>
          let text := pyStrip seg.text
          let g := acc.1.cache.get text s t
          match g.1 with
          | some cached => ({ acc.1 with cache := g.2 }, acc.2.1, acc.2.2 ++ [(text, cached)])
          | none => ({ acc.1 with cache := g.2 }, acc.2.1 ++ [seg], acc.2.2))
        (st, acc1, acc2)).1.selector = st.selector := by
  intro l
  induction l with
  | nil => intro st acc1 acc2 hc; exact ⟨by simp, rfl, hc, rfl⟩
  | cons g rest ih =>
    intro st acc1 acc2 hc
    rw [List.foldl_cons]
    dsimp only
    rw [cache_get_miss st.cache (pyStrip g.text) s t (by rw [hc]; rfl)]
    dsimp only
    rcases ih { st with cache := { st.cache with misses := st.cache.misses + 1 } }
      (acc1 ++ [g]) acc2 hc with ⟨h1, h2, h3, h4⟩
    refine ⟨?_, h2, h3, h4⟩
    rw [h1, List.append_assoc]
    rfl

theorem cacheLookupPhase_empty (s t : String) (st : ServiceState) (l : List Seg)
    (hc : st.cache.entries = []) :
    (cacheLookupPhase s t st l).2.1 = l ∧
    (cacheLookupPhase s t st l).2.2 = [] ∧
    (cacheLookupPhase s t st l).1.cache.entries = [] ∧
    (cacheLookupPhase s t st l).1.selector = st.selector := by
  rcases cacheLookup_empty s t l st [] [] hc with ⟨h1, h2, h3, h4⟩
  exact ⟨by rw [show (cacheLookupPhase s t st l) =
      (l.foldl _ (st, ([] : List Seg), ([] : List (String × String)))) from rfl] at *; simpa using h1,
    h2, h3, h4⟩

theorem dedup_fold_len_mono :
    ∀ (l : List (Nat × Seg)) (acc : List Seg × List (String × List Nat)),
      acc.1.length ≤ (l.foldl dedupStep acc).1.length := by
  intro l
  induction l with
  | nil => intro acc; exact le_refl _
  | cons q rest ih =>
    intro acc
    rw [List.foldl_cons]
    refine le_trans ?_ (ih (dedupStep acc q))
    rw [dedupStep_eq]
    split
    · simp
    · exact le_refl _

theorem dedup_ne_nil (segs : List Seg) (h : segs ≠ []) :
    (deduplicate_segments segs).1 ≠ [] := by
  cases segs with
  | nil => exact absurd rfl h
  | cons g rest =>
    intro hc
    have hlen : 1 ≤ (deduplicate_segments (g :: rest)).1.length := by
      rw [deduplicate_segments, List.enum_cons, List.foldl_cons]
      exact dedup_fold_len_mono _ (dedupStep ([], []) (0, g))
    rw [hc] at hlen
    simp at hlen

theorem zip_map_self (l : List Seg) :
    (l.zip (l.map (fun g => { g with text := pyStrip g.text }))).map
      (fun p => (pyStrip p.1.text, p.2.text)) =
    l.map (fun g => (pyStrip g.text, pyStrip g.text)) := by
  induction l with
  | nil => rfl
  | cons g rest ih =>
    rw [List.map_cons, List.zip_cons_cons, List.map_cons, List.map_cons, ih]

theorem translateUncachedPhase_eq (env : Env) (st : ServiceState) (l : List Seg)
    (s t : String) :
    translateUncachedPhase env st l s t =
      (if st.selector.get_best_strategy s t l.length = .delimiter ∧ l.length > 1 then
        match (translate_batch_delimiter env st l s t 0).2 with
        | some translated => ((translate_batch_delimiter env st l s t 0).1, translated)
        | none =>
            translate_batch_individual env (translate_batch_delimiter env st l s t 0).1 l s t
       else translate_batch_individual env st l s t) := rfl

theorem step3Phase_eq (env : Env) (s t : String)
    (lk : ServiceState × List Seg × List (String × String)) :
    step3Phase env s t lk =
      (if lk.2.1 ≠ [] then
        ((translateUncachedPhase env lk.1 lk.2.1 s t).1,
         lk.2.2 ++ (lk.2.1.zip (translateUncachedPhase env lk.1 lk.2.1 s t).2).map
           (fun p => (pyStrip p.1.text, p.2.text)))
       else (lk.1, lk.2.2)) := rfl

theorem translate_segments_snd_eq (env : Env) (st : ServiceState) (segs : List Seg)
    (s t : String) (h1 : segs ≠ []) (h2 : s ≠ t)
    (h3 : supported_languages.contains t = true) :
    (translate_segments env st segs s t).2 =
      .ok ((fillResult segs (deduplicate_segments segs).2
            (step3Phase env s t (cacheLookupPhase s t (readClock env st).1
               (deduplicate_segments segs).1)).2).map (fun o => o.getD defaultSeg)) := by
  rw [translate_segments, if_neg h1, if_neg h2, if_neg (by rw [h3]; simp)]

/-- Graceful degradation: from a fresh service state with a remote endpoint
that always fails, `translate_segments` raises nothing and returns every
segment with its original (stripped) text. -/
theorem translate_segments_fail (env : Env) (segs : List Seg) (s t : String)
    (hre : ∀ k q, env.remote k q = none)
    (h1 : segs ≠ []) (h2 : s ≠ t) (h3 : supported_languages.contains t = true)
    (hstrip : ∀ g ∈ segs, pyStrip g.text ≠ "") :
    (translate_segments env ServiceState.init segs s t).2 =
      .ok (segs.map (fun g => { g with text := pyStrip g.text })) := by
  rw [translate_segments_snd_eq env ServiceState.init segs s t h1 h2 h3]
  have hST0c : ((readClock env ServiceState.init).1).cache.entries = [] := rfl
  rcases cacheLookupPhase_empty s t (readClock env ServiceState.init).1
      (deduplicate_segments segs).1 hST0c with ⟨hlk1, hlk2, hlkc, hlksel⟩
  have hddne : (deduplicate_segments segs).1 ≠ [] := dedup_ne_nil segs h1
  have hsub : ∀ g ∈ (deduplicate_segments segs).1, pyStrip g.text ≠ "" := by
    intro g hg
    rcases dedup_fold_fst_subset segs.enum ([], []) g hg with hmem | ⟨q, hq, hq2⟩
    · simp at hmem
    · apply hstrip
      rw [← hq2]
      rcases q with ⟨i, sg⟩
      rw [List.mk_mem_enum_iff_getElem?] at hq
      rcases List.getElem?_eq_some_iff.1 hq with ⟨hi, hv⟩
      rw [show sg = segs[i] from hv.symm]
      exact List.getElem_mem hi
  have hsel : (cacheLookupPhase s t (readClock env ServiceState.init).1
      (deduplicate_segments segs).1).1.selector = StrategySelector.init := by
    rw [hlksel]; rfl
  have hcond : ¬((cacheLookupPhase s t (readClock env ServiceState.init).1
        (deduplicate_segments segs).1).1.selector.get_best_strategy s t
        (cacheLookupPhase s t (readClock env ServiceState.init).1
          (deduplicate_segments segs).1).2.1.length = .delimiter ∧
      (cacheLookupPhase s t (readClock env ServiceState.init).1
        (deduplicate_segments segs).1).2.1.length > 1) := by
    rw [hsel, get_best_strategy_init]
    rintro ⟨hc, _⟩
    cases hc
  rcases batch_individual_fail env s t hre h2
      (cacheLookupPhase s t (readClock env ServiceState.init).1
        (deduplicate_segments segs).1).2.1
      (cacheLookupPhase s t (readClock env ServiceState.init).1
        (deduplicate_segments segs).1).1
      hlkc (by rw [hlk1]; exact hsub) with ⟨hb1, hb2⟩
  have hstep3 : (step3Phase env s t (cacheLookupPhase s t
      (readClock env ServiceState.init).1 (deduplicate_segments segs).1)).2 =
      (deduplicate_segments segs).1.map (fun g => (pyStrip g.text, pyStrip g.text)) := by
    rw [step3Phase_eq, if_pos (by rw [hlk1]; exact hddne)]
    dsimp only
    rw [translateUncachedPhase_eq, if_neg hcond, hb1, hlk1, hlk2, zip_map_self]
    rfl
  rw [hstep3]
  apply congrArg
  apply List.ext_getElem?
  intro n
  by_cases hn : n < segs.length
  · rw [List.getElem?_map, (fill_spec segs _).2 n hn, List.getElem?_map,
      List.getElem?_eq_getElem hn]
    have hself : (alookup ((deduplicate_segments segs).1.map
        (fun g => (pyStrip g.text, pyStrip g.text)))
        (pyStrip (segs.getD n defaultSeg).text)).getD
        (pyStrip (segs.getD n defaultSeg).text) =
        pyStrip (segs.getD n defaultSeg).text := by
      apply alookup_getD_self
      intro p hp
      rcases List.mem_map.1 hp with ⟨g, _, hg⟩
      rw [← hg]
    have hgd : segs.getD n defaultSeg = segs[n] := by
      rw [List.getD_eq_getElem?_getD, List.getElem?_eq_getElem hn]
      rfl
    rw [Option.map_some', Option.map_some', Option.getD_some, hself, hgd]
  · have hlen : ((fillResult segs (deduplicate_segments segs).2
        ((deduplicate_segments segs).1.map
          (fun g => (pyStrip g.text, pyStrip g.text)))).map
        (fun o => o.getD defaultSeg)).length = segs.length := by
      rw [List.length_map, (fill_spec segs _).1]
    rw [List.getElem?_eq_none (by rw [hlen]; omega),
      List.getElem?_eq_none (by rw [List.length_map]; omega)]

/-! ## Helper lemmas about cache capacity and LRU order -/

theorem eraseEntry_length_le (l : List (TranslationFingerprint × String))
    (fp : TranslationFingerprint) : (eraseEntry l fp).length ≤ l.length :=
  List.length_filter_le _ _

theorem eraseEntry_length_lt (l : List (TranslationFingerprint × String))
    (fp : TranslationFingerprint) (v : String) (h : alookup l fp = some v) :
    (eraseEntry l fp).length < l.length := by
  induction l with
  | nil => simp [alookup] at h
  | cons p rest ih =>
    rw [alookup] at h
    rw [eraseEntry, List.filter_cons]
    by_cases hb : p.1 == fp
    · rw [if_neg (by rw [hb]; simp)]
      have := List.length_filter_le (fun p => !(p.1 == fp)) rest
      simp only [List.length_cons]
      omega
    · rw [if_pos (by rw [show (p.1 == fp) = false from by simpa using hb]; simp)]
      rw [if_neg hb] at h
      have := ih h
      rw [eraseEntry] at this
      simp only [List.length_cons]
      omega

theorem cache_get_entries_length (c : TranslationCache) (text s t : String) :
    ((c.get text s t).2).entries.length ≤ c.entries.length := by
  rw [cache_get_eq]
  cases h : alookup c.entries (fingerprint text s t) with
  | none => exact le_refl _
  | some v =>
    dsimp only
    rw [List.length_append]
    have := eraseEntry_length_lt c.entries (fingerprint text s t) v h
    simp only [List.length_cons, List.length_nil]
    omega

theorem cache_set_entries_length (c : TranslationCache) (text s t v : String)
    (h : c.entries.length ≤ c.max_size) :
    (c.set text s t v).entries.length ≤ c.max_size := by
  rw [cache_set_eq]
  dsimp only
  have hle := eraseEntry_length_le c.entries (fingerprint text s t)
  by_cases hgt : (eraseEntry c.entries (fingerprint text s t) ++
      [(fingerprint text s t, v)]).length > c.max_size
  · rw [if_pos hgt]
    rw [List.length_drop, List.length_append] at *
    simp only [List.length_cons, List.length_nil] at *
    omega
  · rw [if_neg hgt]
    omega

/-- Capacity invariant: any cache reachable from empty by `get`/`set`
holds at most `max_size` entries. -/
theorem cache_reach_card : ∀ c, CacheReach c → c.entries.length ≤ c.max_size := by
  intro c h
  induction h with
  | init n => simp [TranslationCache.mkEmpty]
  | getStep c text s t _ ih =>
    have hm : (c.get text s t).2.max_size = c.max_size := by
      rw [cache_get_eq]
      cases alookup c.entries (fingerprint text s t) <;> rfl
    rw [hm]
    exact le_trans (cache_get_entries_length c text s t) ih
  | setStep c text s t v _ ih =>
    have hm : (c.set text s t v).max_size = c.max_size := by rw [cache_set_eq]
    rw [hm]
    exact cache_set_entries_length c text s t v ih

/-- The capacity-2 eviction scenario: inserting three distinct fingerprints
evicts exactly the least recently used one. -/
theorem cache_lru_scenario (s t ta tb tc va vb vc : String)
    (hab : fingerprint ta s t ≠ fingerprint tb s t)
    (hac : fingerprint ta s t ≠ fingerprint tc s t)
    (hbc : fingerprint tb s t ≠ fingerprint tc s t) :
    ((((TranslationCache.mkEmpty 2).set ta s t va).set tb s t vb).set tc s t vc).entries =
      [(fingerprint tb s t, vb), (fingerprint tc s t, vc)] ∧
    (((((TranslationCache.mkEmpty 2).set ta s t va).set tb s t vb).set tc s t vc).get
      ta s t).1 = none ∧
    (((((TranslationCache.mkEmpty 2).set ta s t va).set tb s t vb).set tc s t vc).get
      tb s t).1 = some vb ∧
    (((((TranslationCache.mkEmpty 2).set ta s t va).set tb s t vb).set tc s t vc).get
      tc s t).1 = some vc := by
  have beq_ab : (fingerprint ta s t == fingerprint tb s t) = false := by
    simpa using hab
  have beq_ac : (fingerprint ta s t == fingerprint tc s t) = false := by
    simpa using hac
  have beq_bc : (fingerprint tb s t == fingerprint tc s t) = false := by
    simpa using hbc
  have beq_ba : (fingerprint tb s t == fingerprint ta s t) = false := by
    simpa using Ne.symm hab
  have beq_ca : (fingerprint tc s t == fingerprint ta s t) = false := by
    simpa using Ne.symm hac
  have beq_cb : (fingerprint tc s t == fingerprint tb s t) = false := by
    simpa using Ne.symm hbc
  have h1 : ((TranslationCache.mkEmpty 2).set ta s t va).entries =
      [(fingerprint ta s t, va)] := rfl
  have h2 : (((TranslationCache.mkEmpty 2).set ta s t va).set tb s t vb).entries =
      [(fingerprint ta s t, va), (fingerprint tb s t, vb)] := by
    rw [cache_set_eq]
    have hm : ((TranslationCache.mkEmpty 2).set ta s t va).max_size = 2 := rfl
    rw [h1, hm]
    rw [show eraseEntry [(fingerprint ta s t, va)] (fingerprint tb s t) =
        [(fingerprint ta s t, va)] from by
      rw [eraseEntry, List.filter_cons, if_pos (by rw [beq_ab]; simp)]; rfl]
    rfl
  have h3 : ((((TranslationCache.mkEmpty 2).set ta s t va).set tb s t vb).set
      tc s t vc).entries = [(fingerprint tb s t, vb), (fingerprint tc s t, vc)] := by
    rw [cache_set_eq]
    have hm : (((TranslationCache.mkEmpty 2).set ta s t va).set tb s t vb).max_size = 2 := rfl
    rw [h2, hm]
    rw [show eraseEntry [(fingerprint ta s t, va), (fingerprint tb s t, vb)]
        (fingerprint tc s t) = [(fingerprint ta s t, va), (fingerprint tb s t, vb)] from by
      rw [eraseEntry, List.filter_cons, if_pos (by rw [beq_ac]; simp),
        List.filter_cons, if_pos (by rw [beq_bc]; simp)]
      rfl]
    rfl
  refine ⟨h3, ?_, ?_, ?_⟩
  · rw [cache_get_eq, h3]
    rw [show alookup [(fingerprint tb s t, vb), (fingerprint tc s t, vc)]
        (fingerprint ta s t) = none from by
      rw [alookup, if_neg (by rw [beq_ba]; simp), alookup,
        if_neg (by rw [beq_ca]; simp), alookup]]
  · rw [cache_get_eq, h3]
    rw [show alookup [(fingerprint tb s t, vb), (fingerprint tc s t, vc)]
        (fingerprint tb s t) = some vb from by
      rw [alookup, if_pos (by simp)]]
  · rw [cache_get_eq, h3]
    rw [show alookup [(fingerprint tb s t, vb), (fingerprint tc s t, vc)]
        (fingerprint tc s t) = some vc from by
      rw [alookup, if_neg (by rw [beq_bc]; simp), alookup, if_pos (by simp)]]

/-! ## Helper lemma about `record_attempt` -/

theorem record_attempt_metrics_eq (sel : StrategySelector) (source target : String)
    (strategy : BatchStrategy) (success : Bool) (latency : ℚ) (had : Bool) :
    (sel.record_attempt source target strategy success latency had).metrics =
      aset sel.metrics (source, target, strategy)
        (let m0 := (lookupKey sel.metrics (source, target, strategy)).getD BatchMetrics.init
         let m1 := { m0 with attempts := m0.attempts + 1 }
         let m2 := if success then { m1 with successes := m1.successes + 1 }
                   else { m1 with failures := m1.failures + 1 }
         let m3 := if had then { m2 with mismatch_count := m2.mismatch_count + 1 } else m2
         { m3 with avg_latency :=
             (m3.avg_latency * ((m3.attempts - 1 : Nat) : ℚ) + latency) / (m3.attempts : ℚ) }) := rfl

/-- Recording an attempt with `had_mismatch := true` bumps the key's
mismatch count (and attempt count) by exactly one. -/
theorem record_attempt_mismatch_lookup (sel : StrategySelector) (source target : String)
    (strategy : BatchStrategy) (success : Bool) (latency : ℚ) :
    ∃ m, lookupKey (sel.record_attempt source target strategy success latency true).metrics
        (source, target, strategy) = some m ∧
      m.attempts = ((lookupKey sel.metrics (source, target, strategy)).getD
        BatchMetrics.init).attempts + 1 ∧
      m.mismatch_count = ((lookupKey sel.metrics (source, target, strategy)).getD
        BatchMetrics.init).mismatch_count + 1 := by
  rw [record_attempt_metrics_eq]
  cases success with
  | false => exact ⟨_, alookup_aset_self _ _ _, rfl, rfl⟩
  | true => exact ⟨_, alookup_aset_self _ _ _, rfl, rfl⟩

/-! ## Helper lemmas about delimiter rotation -/

theorem tbdAux_eq (env : Env) (fuel : Nat) (st : ServiceState) (segments : List Seg)
    (source target : String) (delimiter_idx : Nat) :
    tbdAux env fuel st segments source target delimiter_idx =
      if segments = [] then (st, some [])
      else
        match (translate_single_uncached env (readClock env st).1
            (pyJoin (DELIMITERS.getD delimiter_idx "")
              (segments.map (fun seg => pyStrip seg.text))) source target).2 with
        | none =>
            ((translate_single_uncached env (readClock env st).1
               (pyJoin (DELIMITERS.getD delimiter_idx "")
                 (segments.map (fun seg => pyStrip seg.text))) source target).1, none)
        | some translated_combined =>
          let u1 := (translate_single_uncached env (readClock env st).1
            (pyJoin (DELIMITERS.getD delimiter_idx "")
              (segments.map (fun seg => pyStrip seg.text))) source target).1
          let st1 := (readClock env u1).1
          let latency := (readClock env u1).2 - (readClock env st).2
          let translated_parts := pySplit translated_combined (DELIMITERS.getD delimiter_idx "")
          if translated_parts.length ≠ segments.length then
            if delimiter_idx < DELIMITERS.length - 1 then
              match fuel with
              | 0 => (st1, none)
              | fuel' + 1 => tbdAux env fuel' st1 segments source target (delimiter_idx + 1)
            else
              ({ st1 with selector :=
                  st1.selector.record_attempt source target .delimiter false latency true },
               none)
          else
            let st2 := { st1 with selector :=
                st1.selector.record_attempt source target .delimiter true latency false }
            let built := (segments.zip translated_parts).foldl
              (fun acc p =>
                let trText := pyStrip p.2
                ({ acc.1 with cache :=
                    acc.1.cache.set (pyStrip p.1.text) source target trText },
                 acc.2 ++ [{ start := p.1.start, stop := p.1.stop, text := trText }]))
              (st2, ([] : List Seg))
            (built.1, some built.2) := by
  rw [tbdAux]

/-- A delimiter mismatch below the last delimiter retries with the next
delimiter, consuming one remote call and two clock reads and recording
nothing. -/
theorem tbd_iter_mismatch (env : Env) (fuel : Nat) (st : ServiceState) (segs : List Seg)
    (s t : String) (idx : Nat) (R : String)
    (hne : segs ≠ []) (hst : s ≠ t)
    (hc0 : ¬(pyJoin (DELIMITERS.getD idx "") (segs.map (fun g => pyStrip g.text)) = "" ∨
        pyStrip (pyJoin (DELIMITERS.getD idx "") (segs.map (fun g => pyStrip g.text))) = ""))
    (hresp : env.remote st.calls
        (pyJoin (DELIMITERS.getD idx "") (segs.map (fun g => pyStrip g.text))) = some R)
    (hR : ¬ pyStrip R = "")
    (hmm : (pySplit (pyStrip R) (DELIMITERS.getD idx "")).length ≠ segs.length)
    (hidx : idx < DELIMITERS.length - 1) :
    tbdAux env (fuel + 1) st segs s t idx =
      tbdAux env fuel { st with ticks := st.ticks + 2, calls := st.calls + 1 }
        segs s t (idx + 1) := by
  rw [tbdAux_eq, if_neg hne, readClock_eq]
  rw [uncached_eq, if_neg hc0, if_neg hst]
  dsimp only
  rw [hresp]
  dsimp only
  rw [if_neg hR]
  dsimp only
  rw [if_pos hmm, if_pos hidx, readClock_eq]

/-- A delimiter mismatch at the last delimiter records one failed attempt
with a mismatch against `DELIMITER` and gives up (`None`). -/
theorem tbd_last_mismatch (env : Env) (fuel : Nat) (st : ServiceState) (segs : List Seg)
    (s t : String) (R : String)
    (hne : segs ≠ []) (hst : s ≠ t)
    (hc0 : ¬(pyJoin (DELIMITERS.getD 2 "") (segs.map (fun g => pyStrip g.text)) = "" ∨
        pyStrip (pyJoin (DELIMITERS.getD 2 "") (segs.map (fun g => pyStrip g.text))) = ""))
    (hresp : env.remote st.calls
        (pyJoin (DELIMITERS.getD 2 "") (segs.map (fun g => pyStrip g.text))) = some R)
    (hR : ¬ pyStrip R = "")
    (hmm : (pySplit (pyStrip R) (DELIMITERS.getD 2 "")).length ≠ segs.length) :
    tbdAux env fuel st segs s t 2 =
      ({ st with
           ticks := st.ticks + 2,
           calls := st.calls + 1,
           selector := st.selector.record_attempt s t .delimiter false
             (env.clock (st.ticks + 1) - env.clock st.ticks) true }, none) := by
  rw [tbdAux_eq, if_neg hne, readClock_eq]
  rw [uncached_eq, if_neg hc0, if_neg hst]
  dsimp only
  rw [hresp]
  dsimp only
  rw [if_neg hR]
  dsimp only
  rw [if_pos hmm, if_neg (by rw [show DELIMITERS.length - 1 = 2 from rfl]; omega),
    readClock_eq]

/-- All three delimiters mismatch: the batch gives up with `None` after
three remote calls, recording exactly one mismatch against `DELIMITER`. -/
theorem tbd_all_mismatch (env : Env) (st : ServiceState) (segs : List Seg)
    (s t : String) (R0 R1 R2 : String)
    (hne : segs ≠ []) (hst : s ≠ t)
    (hc0 : ∀ i, i < 3 →
      ¬(pyJoin (DELIMITERS.getD i "") (segs.map (fun g => pyStrip g.text)) = "" ∨
        pyStrip (pyJoin (DELIMITERS.getD i "") (segs.map (fun g => pyStrip g.text))) = ""))
    (hresp0 : env.remote st.calls
        (pyJoin (DELIMITERS.getD 0 "") (segs.map (fun g => pyStrip g.text))) = some R0)
    (hresp1 : env.remote (st.calls + 1)
        (pyJoin (DELIMITERS.getD 1 "") (segs.map (fun g => pyStrip g.text))) = some R1)
    (hresp2 : env.remote (st.calls + 2)
        (pyJoin (DELIMITERS.getD 2 "") (segs.map (fun g => pyStrip g.text))) = some R2)
    (hR0 : ¬ pyStrip R0 = "") (hR1 : ¬ pyStrip R1 = "") (hR2 : ¬ pyStrip R2 = "")
    (hmm0 : (pySplit (pyStrip R0) (DELIMITERS.getD 0 "")).length ≠ segs.length)
    (hmm1 : (pySplit (pyStrip R1) (DELIMITERS.getD 1 "")).length ≠ segs.length)
    (hmm2 : (pySplit (pyStrip R2) (DELIMITERS.getD 2 "")).length ≠ segs.length) :
    translate_batch_delimiter env st segs s t 0 =
      ({ st with
           ticks := st.ticks + 6,
           calls := st.calls + 3,
           selector := st.selector.record_attempt s t .delimiter false
             (env.clock (st.ticks + 5) - env.clock (st.ticks + 4)) true }, none) := by
  rw [translate_batch_delimiter]
  rw [show DELIMITERS.length = 2 + 1 from rfl]
  rw [tbd_iter_mismatch env 2 st segs s t 0 R0 hne hst (hc0 0 (by omega)) hresp0 hR0 hmm0
    (by rw [show DELIMITERS.length - 1 = 2 from rfl]; omega)]
  rw [show (2 : Nat) = 1 + 1 from rfl]
  rw [tbd_iter_mismatch env 1 _ segs s t 1 R1 hne hst (hc0 1 (by omega))
    (by dsimp only; exact hresp1) hR1 hmm1
    (by rw [show DELIMITERS.length - 1 = 2 from rfl]; omega)]
  rw [tbd_last_mismatch env 1 _ segs s t R2 hne hst (hc0 2 (by omega))
    (by dsimp only; exact hresp2) hR2 hmm2]

/-! ## Claim theorems -/

/-- C1: whenever `translate_segments` returns normally, the result has
exactly the input's length, in the same order, with each element's `start`
and `end` equal to the corresponding input element's; only `text` may
differ. -/
theorem claim_C1_segment_shape (env : Env) (st : ServiceState) (segs : List Seg)
    (s t : String) (res : List Seg)
    (h : (translate_segments env st segs s t).2 = .ok res) :
    res.length = segs.length ∧
    ∀ j, j < segs.length →
      (res.getD j defaultSeg).start = (segs.getD j defaultSeg).start ∧
      (res.getD j defaultSeg).stop = (segs.getD j defaultSeg).stop :=
  translate_segments_ok_shape env st segs s t res h

theorem claim_C1_witness :
    (translate_segments failEnvW ServiceState.init
        [⟨0, 1, " hi "⟩, ⟨1, 2, "yo"⟩] "en" "fr").2 = .ok [⟨0, 1, "hi"⟩, ⟨1, 2, "yo"⟩] ∧
    (([⟨0, 1, "hi"⟩, ⟨1, 2, "yo"⟩] : List Seg).length =
      ([⟨0, 1, " hi "⟩, ⟨1, 2, "yo"⟩] : List Seg).length ∧
     ∀ j, j < ([⟨0, 1, " hi "⟩, ⟨1, 2, "yo"⟩] : List Seg).length →
       (([⟨0, 1, "hi"⟩, ⟨1, 2, "yo"⟩] : List Seg).getD j defaultSeg).start =
         (([⟨0, 1, " hi "⟩, ⟨1, 2, "yo"⟩] : List Seg).getD j defaultSeg).start ∧
       (([⟨0, 1, "hi"⟩, ⟨1, 2, "yo"⟩] : List Seg).getD j defaultSeg).stop =
         (([⟨0, 1, " hi "⟩, ⟨1, 2, "yo"⟩] : List Seg).getD j defaultSeg).stop) :=
  ⟨by with_unfolding_all decide,
   claim_C1_segment_shape failEnvW ServiceState.init [⟨0, 1, " hi "⟩, ⟨1, 2, "yo"⟩]
     "en" "fr" [⟨0, 1, "hi"⟩, ⟨1, 2, "yo"⟩] (by with_unfolding_all decide)⟩

/-- C2 counterexample: with a dead remote and a fresh service, the single
segment `" hi "` comes back with text `"hi"`, not the original `" hi "`:
the fallback substitutes the stripped text, so the output text does not
equal the input text verbatim. -/
theorem claim_C2_counterexample :
    (translate_segments failEnvW ServiceState.init [⟨0, 1, " hi "⟩] "en" "fr").2 =
      .ok [⟨0, 1, "hi"⟩] ∧
    (translate_segments failEnvW ServiceState.init [⟨0, 1, " hi "⟩] "en" "fr").2 ≠
      .ok [⟨0, 1, " hi "⟩] := by
  constructor
  · with_unfolding_all decide
  · with_unfolding_all decide

/-- C2 (amended): with a supported target, `translate_segments` never
raises (for any state, environment and input); the only crossing error is
the unsupported-target `ValueError`; and with a fresh service and a remote
endpoint that always fails, every output text equals the corresponding
input text stripped of surrounding whitespace. -/
theorem claim_C2_graceful_degradation :
    (∀ (env : Env) (st : ServiceState) (segs : List Seg) (s t : String),
       supported_languages.contains t = true →
       ∃ res, (translate_segments env st segs s t).2 = .ok res) ∧
    (∀ (env : Env) (st : ServiceState) (segs : List Seg) (s t : String),
       (∃ msg, (translate_segments env st segs s t).2 = .error msg) ↔
         segs ≠ [] ∧ s ≠ t ∧ supported_languages.contains t = false) ∧
    (∀ (env : Env) (segs : List Seg) (s t : String),
       (∀ k q, env.remote k q = none) → segs ≠ [] → s ≠ t →
       supported_languages.contains t = true →
       (∀ g ∈ segs, pyStrip g.text ≠ "") →
       (translate_segments env ServiceState.init segs s t).2 =
         .ok (segs.map (fun g => { g with text := pyStrip g.text }))) :=
  ⟨translate_segments_ok_or_unsupported,
   translate_segments_error_iff,
   translate_segments_fail⟩

theorem claim_C2_witness :
    ((∀ k q, failEnvW.remote k q = Option.none) ∧ ([⟨0, 1, "hi"⟩] : List Seg) ≠ [] ∧
      ("en" : String) ≠ "fr" ∧ supported_languages.contains "fr" = true ∧
      (∀ g ∈ ([⟨0, 1, "hi"⟩] : List Seg), pyStrip g.text ≠ "")) ∧
    (translate_segments failEnvW ServiceState.init [⟨0, 1, "hi"⟩] "en" "fr").2 =
      .ok ((([⟨0, 1, "hi"⟩] : List Seg)).map (fun g => { g with text := pyStrip g.text })) :=
  ⟨⟨fun _ _ => rfl, by with_unfolding_all decide, by with_unfolding_all decide, by with_unfolding_all decide, by with_unfolding_all decide⟩,
   claim_C2_graceful_degradation.2.2 failEnvW [⟨0, 1, "hi"⟩] "en" "fr"
     (fun _ _ => rfl) (by with_unfolding_all decide) (by with_unfolding_all decide) (by with_unfolding_all decide) (by with_unfolding_all decide)⟩

/-- C3: the circuit breaker starts CLOSED with threshold 5 / timeout 60;
counted failures increment the count and open the breaker at the
threshold; while OPEN within the recovery window calls are rejected
without invoking the function; after the window the breaker goes
HALF_OPEN and the call is attempted; successes in CLOSED/HALF_OPEN reset
the count (HALF_OPEN success closes the breaker); a reachable OPEN
breaker whose recovery window has elapsed first enters HALF_OPEN, and
when that HALF_OPEN trial call fails the breaker returns to OPEN with
`last_failure_time` refreshed to the failure time. -/
theorem claim_C3_circuit_breaker :
    ((CircuitBreaker.init 5 60).state = .closed ∧
     (CircuitBreaker.init 5 60).failure_count = 0 ∧
     (CircuitBreaker.init 5 60).failure_threshold = 5 ∧
     (CircuitBreaker.init 5 60).recovery_timeout = 60) ∧
    (∀ (cb : CircuitBreaker) (now : ℚ), cb.state ≠ .open' →
       (cb.call now (none : Option Unit)).1.failure_count = cb.failure_count + 1 ∧
       (cb.failure_threshold ≤ cb.failure_count + 1 →
         (cb.call now (none : Option Unit)).1.state = .open')) ∧
    (∀ (cb : CircuitBreaker) (now t₀ : ℚ) (f : Option Unit),
       cb.state = .open' → cb.last_failure_time = some t₀ →
       now - t₀ < cb.recovery_timeout → cb.call now f = (cb, .rejected)) ∧
    (∀ (cb : CircuitBreaker) (now t₀ : ℚ) (f : Option Unit),
       cb.state = .open' → cb.last_failure_time = some t₀ →
       cb.recovery_timeout ≤ now - t₀ →
       cb.guard now = ({ cb with state := .half_open }, true) ∧
       (cb.call now f).2 ≠ .rejected) ∧
    (∀ (cb : CircuitBreaker) (now : ℚ) (a : Unit), cb.state ≠ .open' →
       (cb.call now (some a)).1.failure_count = 0 ∧
       (cb.state = .half_open → (cb.call now (some a)).1.state = .closed) ∧
       (cb.state = .closed → (cb.call now (some a)).1.state = .closed)) ∧
    (∀ (cb : CircuitBreaker) (now t₀ : ℚ) (a : Unit),
       cb.state = .open' → cb.last_failure_time = some t₀ →
       cb.recovery_timeout ≤ now - t₀ →
       (cb.call now (some a)).1.state = .closed ∧
       (cb.call now (some a)).1.failure_count = 0) ∧
    (∀ (cb : CircuitBreaker) (now t₀ : ℚ), CBReach cb →
       cb.state = .open' → cb.last_failure_time = some t₀ →
       cb.recovery_timeout ≤ now - t₀ →
       (cb.guard now).1.state = .half_open ∧
       (cb.call now (none : Option Unit)).1.state = .open' ∧
       (cb.call now (none : Option Unit)).1.last_failure_time = some now) :=
  ⟨⟨rfl, rfl, rfl, rfl⟩,
   fun cb now h => ⟨(cb_call_not_open_failure cb now h).2.1,
     fun hth => (cb_call_not_open_failure cb now h).2.2.2.1 hth⟩,
   cb_call_open_rejected,
   fun cb now t₀ f hs hl ht =>
     ⟨cb_guard_open_ge cb now t₀ hs hl ht, cb_call_open_elapsed cb now t₀ f hs hl ht⟩,
   cb_call_success,
   cb_call_open_elapsed_success,
   fun cb now t₀ hr hs hl ht => by
     have hinv := cb_reach_invariant cb hr (by rw [hs]; intro hc; cases hc)
     refine ⟨?_, ?_, ?_⟩
     · rw [cb_guard_open_ge cb now t₀ hs hl ht]
     · exact (cb_call_open_elapsed_failure cb now t₀ hs hl ht (Nat.le_succ_of_le hinv)).1
     · exact (cb_call_open_elapsed_failure cb now t₀ hs hl ht (Nat.le_succ_of_le hinv)).2⟩

theorem claim_C3_witness :
    (((⟨5, 60, 5, some 0, .open'⟩ : CircuitBreaker).state = .open' ∧
      (⟨5, 60, 5, some 0, .open'⟩ : CircuitBreaker).last_failure_time = some 0 ∧
      (10 : ℚ) - 0 < (⟨5, 60, 5, some 0, .open'⟩ : CircuitBreaker).recovery_timeout) ∧
     (⟨5, 60, 5, some 0, .open'⟩ : CircuitBreaker).call 10 (none : Option Unit) =
       (⟨5, 60, 5, some 0, .open'⟩, .rejected)) ∧
    ((⟨5, 60, 5, some 0, .open'⟩ : CircuitBreaker).call 60 (some ()) |>.1.state = .closed) ∧
    ((⟨5, 60, 5, some 0, .open'⟩ : CircuitBreaker).call 60 (some ()) |>.1.failure_count = 0) ∧
    ((((CircuitBreaker.init 1 60).call 0 (none : Option Unit)).1.guard 60).1.state = .half_open ∧
     (((CircuitBreaker.init 1 60).call 0 (none : Option Unit)).1.call 60
        (none : Option Unit)).1.state = .open' ∧
     (((CircuitBreaker.init 1 60).call 0 (none : Option Unit)).1.call 60
        (none : Option Unit)).1.last_failure_time = some 60) :=
  ⟨⟨⟨by with_unfolding_all decide, by with_unfolding_all decide, by with_unfolding_all decide⟩,
    claim_C3_circuit_breaker.2.2.1 ⟨5, 60, 5, some 0, .open'⟩ 10 0 none
      (by with_unfolding_all decide) (by with_unfolding_all decide) (by with_unfolding_all decide)⟩,
   (claim_C3_circuit_breaker.2.2.2.2.2.1 ⟨5, 60, 5, some 0, .open'⟩ 60 0 ()
      (by with_unfolding_all decide) (by with_unfolding_all decide) (by with_unfolding_all decide)).1,
   (claim_C3_circuit_breaker.2.2.2.2.2.1 ⟨5, 60, 5, some 0, .open'⟩ 60 0 ()
      (by with_unfolding_all decide) (by with_unfolding_all decide) (by with_unfolding_all decide)).2,
   claim_C3_circuit_breaker.2.2.2.2.2.2 ((CircuitBreaker.init 1 60).call 0 (none : Option Unit)).1
     60 0 (CBReach.step (CircuitBreaker.init 1 60) 0 none (CBReach.init 1 60))
     (by with_unfolding_all decide) (by with_unfolding_all decide) (by with_unfolding_all decide)⟩

/-- C4 counterexample: with three recorded fully-successful `JSON_ARRAY`
attempts for en→fr, a request for 6 segments returns `JSON_ARRAY`: the
candidate list for more than 5 segments does include `JSON_ARRAY`,
contradicting the claim that only `DELIMITER`/`INDIVIDUAL` can be
returned for any count and metrics history. -/
theorem claim_C4_counterexample :
    seededJsonSelector.get_best_strategy "en" "fr" 6 = .json_array ∧ (1 : Nat) ≤ 6 := by
  constructor
  · with_unfolding_all decide
  · with_unfolding_all decide

/-- C4 (amended): `unique_count = 1` always yields `INDIVIDUAL`;
for `2 ≤ n ≤ 5` the candidates are `[DELIMITER, INDIVIDUAL]` and for
`n > 5` they are `[JSON_ARRAY, DELIMITER, INDIVIDUAL]`; the returned
strategy is a candidate maximising the score, where a key with recorded
metrics scores its `reliability_score` and one without scores the fixed
prior (DELIMITER = 0.6, INDIVIDUAL = 0.9, JSON_ARRAY = 0.8);
`CACHED_ONLY` is never returned. -/
theorem claim_C4_strategy_selection :
    (∀ (sel : StrategySelector) (s t : String), sel.get_best_strategy s t 1 = .individual) ∧
    (∀ (sel : StrategySelector) (s t : String) (n : Nat), n ≠ 1 →
       sel.get_best_strategy s t n ∈
         (if n ≤ 5 then [BatchStrategy.delimiter, .individual]
          else [.json_array, .delimiter, .individual]) ∧
       ∀ c ∈ (if n ≤ 5 then [BatchStrategy.delimiter, .individual]
              else [.json_array, .delimiter, .individual]),
         sel.scoreOf s t c ≤ sel.scoreOf s t (sel.get_best_strategy s t n)) ∧
    (∀ (sel : StrategySelector) (s t : String) (c : BatchStrategy),
       (lookupKey sel.metrics (s, t, c) = none → sel.scoreOf s t c = defaultScore c) ∧
       ∀ m, lookupKey sel.metrics (s, t, c) = some m →
         sel.scoreOf s t c = m.reliability_score) ∧
    (defaultScore .delimiter = 6/10 ∧ defaultScore .individual = 9/10 ∧
     defaultScore .json_array = 8/10) ∧
    (∀ (sel : StrategySelector) (s t : String) (n : Nat), 1 ≤ n →
       sel.get_best_strategy s t n ≠ .cached_only) := by
  refine ⟨?_, ?_, ?_, ⟨rfl, rfl, rfl⟩, ?_⟩
  · intro sel s t
    rw [StrategySelector.get_best_strategy, if_pos rfl]
  · intro sel s t n hn
    exact get_best_strategy_spec_mem sel s t n hn
  · intro sel s t c
    constructor
    · intro h
      rw [StrategySelector.scoreOf]
      rw [show lookupKey sel.metrics (s, t, c) = none from h]
    · intro m h
      rw [StrategySelector.scoreOf]
      rw [show lookupKey sel.metrics (s, t, c) = some m from h]
  · intro sel s t n hn
    by_cases h1 : n = 1
    · subst h1
      rw [StrategySelector.get_best_strategy, if_pos rfl]
      intro hc; cases hc
    · rcases get_best_strategy_spec_mem sel s t n h1 with ⟨hmem, _⟩
      intro hc
      rw [hc] at hmem
      by_cases h5 : n ≤ 5
      · rw [if_pos h5] at hmem; simp at hmem
      · rw [if_neg h5] at hmem; simp at hmem

theorem claim_C4_witness :
    ((2 : Nat) ≠ 1 ∧
     (StrategySelector.init.get_best_strategy "en" "fr" 2 ∈
        (if 2 ≤ 5 then [BatchStrategy.delimiter, .individual]
         else [.json_array, .delimiter, .individual]) ∧
      ∀ c ∈ (if 2 ≤ 5 then [BatchStrategy.delimiter, .individual]
             else [.json_array, .delimiter, .individual]),
        StrategySelector.init.scoreOf "en" "fr" c ≤
          StrategySelector.init.scoreOf "en" "fr"
            (StrategySelector.init.get_best_strategy "en" "fr" 2))) ∧
    ((1 : Nat) ≤ 6 ∧ seededJsonSelector.get_best_strategy "en" "fr" 6 ≠ .cached_only) :=
  ⟨⟨by with_unfolding_all decide, claim_C4_strategy_selection.2.1 StrategySelector.init "en" "fr" 2 (by with_unfolding_all decide)⟩,
   ⟨by with_unfolding_all decide, claim_C4_strategy_selection.2.2.2.2 seededJsonSelector "en" "fr" 6 (by with_unfolding_all decide)⟩⟩

/-- C5: the `/translate/text` route calls `translation_service.translate`,
but the `TranslationService` class defines no method named `translate`
(while `translate_segments` does exist): every request through that route
fails with an `AttributeError` turned into HTTP 500. -/
theorem claim_C5_route_calls_missing_method :
    translateTextRouteCall ∉ translationServiceMethods ∧
    "translate_segments" ∈ translationServiceMethods := by
  constructor
  · with_unfolding_all decide
  · with_unfolding_all decide

/-- C6 counterexample: `" hi "` and `"hi"` have the same stripped form,
yet `_fingerprint` produces different fingerprints, because the SHA-256 is
taken over the raw text, not the stripped text. -/
theorem claim_C6_counterexample :
    pyStrip " hi " = pyStrip "hi" ∧
    fingerprint " hi " "en" "fr" ≠ fingerprint "hi" "en" "fr" := by
  constructor
  · with_unfolding_all decide
  · with_unfolding_all decide

/-- C6 (amended): the content hash is over the raw text, so only texts
whose raw forms coincide share a fingerprint; since every cache/dedup call
site inside `TranslationService` strips before fingerprinting, two
segments with identical stripped text map to the same key at those call
sites, and (whenever translation runs, `source ≠ target`) receive the same
output text. -/
theorem claim_C6_fingerprint_after_strip :
    (∀ (t1 t2 s l : String), pyStrip t1 = pyStrip t2 →
       fingerprint (pyStrip t1) s l = fingerprint (pyStrip t2) s l) ∧
    (∀ (env : Env) (st : ServiceState) (segs : List Seg) (s t : String) (res : List Seg),
       s ≠ t → (translate_segments env st segs s t).2 = .ok res →
       ∀ i j, i < segs.length → j < segs.length →
         pyStrip (segs.getD i defaultSeg).text = pyStrip (segs.getD j defaultSeg).text →
         (res.getD i defaultSeg).text = (res.getD j defaultSeg).text) := by
  constructor
  · intro t1 t2 s l h
    rw [h]
  · intro env st segs s t res hst h i j hi hj heq
    by_cases h1 : segs = []
    · subst h1; simp at hi
    · by_cases h3 : supported_languages.contains t = true
      · rcases translate_segments_main_shape env st segs s t h1 hst h3 with ⟨st', ct, heqq⟩
        rw [heqq] at h
        simp only [Except.ok.injEq] at h
        subst h
        have key : ∀ n, n < segs.length →
            (((fillResult segs (deduplicate_segments segs).2 ct).map
              (fun o => o.getD defaultSeg)).getD n defaultSeg).text =
            (alookup ct (pyStrip (segs.getD n defaultSeg).text)).getD
              (pyStrip (segs.getD n defaultSeg).text) := by
          intro n hn
          have hfn := (fill_spec segs ct).2 n hn
          rw [List.getD_eq_getElem?_getD, List.getElem?_map, hfn]
          rfl
        rw [key i hi, key j hj, heq]
      · rw [translate_segments_unsupported env st segs s t h1 hst (by simpa using h3)] at h
        simp at h

theorem claim_C6_witness :
    (pyStrip " hi " = pyStrip "hi" ∧ ("en" : String) ≠ "fr" ∧
     (translate_segments failEnvW ServiceState.init
        [⟨0, 1, " hi "⟩, ⟨1, 2, "hi"⟩] "en" "fr").2 = .ok [⟨0, 1, "hi"⟩, ⟨1, 2, "hi"⟩]) ∧
    (([⟨0, 1, "hi"⟩, ⟨1, 2, "hi"⟩] : List Seg).getD 0 defaultSeg).text =
      (([⟨0, 1, "hi"⟩, ⟨1, 2, "hi"⟩] : List Seg).getD 1 defaultSeg).text :=
  ⟨⟨by with_unfolding_all decide, by decide, by with_unfolding_all decide⟩,
   claim_C6_fingerprint_after_strip.2 failEnvW ServiceState.init
     [⟨0, 1, " hi "⟩, ⟨1, 2, "hi"⟩] "en" "fr" [⟨0, 1, "hi"⟩, ⟨1, 2, "hi"⟩]
     (by decide) (by with_unfolding_all decide) 0 1 (by decide) (by decide)
     (by with_unfolding_all decide)⟩

/-- C7 counterexample: a metrics record with one successful attempt has
`attempts > 0` but `reliability_score = 0.5`, not the claimed formula's
value `1`: below three attempts the source returns the flat
insufficient-data score. -/
theorem claim_C7_counterexample :
    (0 : Nat) < (⟨1, 1, 0, 0, 0⟩ : BatchMetrics).attempts ∧
    (⟨1, 1, 0, 0, 0⟩ : BatchMetrics).reliability_score ≠
      specReliabilityScore ⟨1, 1, 0, 0, 0⟩ := by
  constructor
  · decide
  · with_unfolding_all decide

/-- C7 (amended): for `attempts ≥ 3` the reliability score is exactly
`max(0, successes/attempts − min(0.3, mismatch_count*0.1) −
min(0.2, avg_latency/30))`; for `0 < attempts < 3` (and `attempts = 0`)
it is the flat insufficient-data score `0.5`. -/
theorem claim_C7_reliability_formula :
    (∀ m : BatchMetrics, 3 ≤ m.attempts → m.reliability_score = specReliabilityScore m) ∧
    (∀ m : BatchMetrics, m.attempts < 3 → m.reliability_score = 1/2) := by
  refine ⟨reliability_score_eq_spec, ?_⟩
  intro m h
  rw [BatchMetrics.reliability_score, if_pos h]

theorem claim_C7_witness :
    ((3 : Nat) ≤ (⟨4, 2, 2, 10, 1⟩ : BatchMetrics).attempts ∧
     (⟨4, 2, 2, 10, 1⟩ : BatchMetrics).reliability_score =
       specReliabilityScore ⟨4, 2, 2, 10, 1⟩) ∧
    ((⟨1, 1, 0, 0, 0⟩ : BatchMetrics).attempts < 3 ∧
     (⟨1, 1, 0, 0, 0⟩ : BatchMetrics).reliability_score = 1/2) :=
  ⟨⟨by decide, claim_C7_reliability_formula.1 ⟨4, 2, 2, 10, 1⟩ (by decide)⟩,
   ⟨by decide, claim_C7_reliability_formula.2 ⟨1, 1, 0, 0, 0⟩ (by decide)⟩⟩

/-- C8 counterexample: the primary delimiter corrupts (the response splits
into 1 part instead of 2) and the batch is retried with delimiter #1,
which succeeds — but no mismatch is recorded against `DELIMITER`: its
mismatch count stays 0.  The code only records a mismatch when the *last*
delimiter also fails. -/
theorem claim_C8_counterexample :
    (translate_segments delimRotateEnvW
        { ServiceState.init with selector := seededDelimSelector }
        [⟨0, 1, "a"⟩, ⟨1, 2, "b"⟩] "en" "fr").2 = .ok [⟨0, 1, "A"⟩, ⟨1, 2, "B"⟩] ∧
    (translate_segments delimRotateEnvW
        { ServiceState.init with selector := seededDelimSelector }
        [⟨0, 1, "a"⟩, ⟨1, 2, "b"⟩] "en" "fr").1.calls = 2 ∧
    (lookupKey (translate_segments delimRotateEnvW
        { ServiceState.init with selector := seededDelimSelector }
        [⟨0, 1, "a"⟩, ⟨1, 2, "b"⟩] "en" "fr").1.selector.metrics
      ("en", "fr", .delimiter)).map BatchMetrics.mismatch_count = some 0 := by
  refine ⟨?_, ?_, ?_⟩
  · with_unfolding_all decide
  · with_unfolding_all decide
  · with_unfolding_all decide

/-- C8 (amended): a mismatching split below the last delimiter retries
with the next delimiter without recording anything; when all three
delimiters mismatch, the batch returns `None` recording exactly one
mismatch (and one failed attempt) against `DELIMITER`; the individual
fallback then still returns exactly one output per input segment. -/
theorem claim_C8_delimiter_rotation :
    (∀ (env : Env) (fuel : Nat) (st : ServiceState) (segs : List Seg) (s t : String)
       (idx : Nat) (R : String),
       segs ≠ [] → s ≠ t →
       ¬(pyJoin (DELIMITERS.getD idx "") (segs.map (fun g => pyStrip g.text)) = "" ∨
         pyStrip (pyJoin (DELIMITERS.getD idx "") (segs.map (fun g => pyStrip g.text))) = "") →
       env.remote st.calls
         (pyJoin (DELIMITERS.getD idx "") (segs.map (fun g => pyStrip g.text))) = some R →
       ¬ pyStrip R = "" →
       (pySplit (pyStrip R) (DELIMITERS.getD idx "")).length ≠ segs.length →
       idx < DELIMITERS.length - 1 →
       tbdAux env (fuel + 1) st segs s t idx =
         tbdAux env fuel { st with ticks := st.ticks + 2, calls := st.calls + 1 }
           segs s t (idx + 1)) ∧
    (∀ (env : Env) (st : ServiceState) (segs : List Seg) (s t : String) (R0 R1 R2 : String),
       segs ≠ [] → s ≠ t →
       (∀ i, i < 3 →
         ¬(pyJoin (DELIMITERS.getD i "") (segs.map (fun g => pyStrip g.text)) = "" ∨
           pyStrip (pyJoin (DELIMITERS.getD i "") (segs.map (fun g => pyStrip g.text))) = "")) →
       env.remote st.calls
         (pyJoin (DELIMITERS.getD 0 "") (segs.map (fun g => pyStrip g.text))) = some R0 →
       env.remote (st.calls + 1)
         (pyJoin (DELIMITERS.getD 1 "") (segs.map (fun g => pyStrip g.text))) = some R1 →
       env.remote (st.calls + 2)
         (pyJoin (DELIMITERS.getD 2 "") (segs.map (fun g => pyStrip g.text))) = some R2 →
       ¬ pyStrip R0 = "" → ¬ pyStrip R1 = "" → ¬ pyStrip R2 = "" →
       (pySplit (pyStrip R0) (DELIMITERS.getD 0 "")).length ≠ segs.length →
       (pySplit (pyStrip R1) (DELIMITERS.getD 1 "")).length ≠ segs.length →
       (pySplit (pyStrip R2) (DELIMITERS.getD 2 "")).length ≠ segs.length →
       (translate_batch_delimiter env st segs s t 0).2 = none ∧
       ∃ m, lookupKey (translate_batch_delimiter env st segs s t 0).1.selector.metrics
           (s, t, .delimiter) = some m ∧
         m.attempts = ((lookupKey st.selector.metrics (s, t, .delimiter)).getD
           BatchMetrics.init).attempts + 1 ∧
         m.mismatch_count = ((lookupKey st.selector.metrics (s, t, .delimiter)).getD
           BatchMetrics.init).mismatch_count + 1) ∧
    (∀ (env : Env) (st : ServiceState) (l : List Seg) (s t : String),
       (translate_batch_individual env st l s t).2.length = l.length) := by
  refine ⟨tbd_iter_mismatch, ?_, batch_individual_length⟩
  intro env st segs s t R0 R1 R2 hne hst hc0 hresp0 hresp1 hresp2 hR0 hR1 hR2 hmm0 hmm1 hmm2
  have hall := tbd_all_mismatch env st segs s t R0 R1 R2 hne hst hc0
    hresp0 hresp1 hresp2 hR0 hR1 hR2 hmm0 hmm1 hmm2
  rw [hall]
  exact ⟨rfl, record_attempt_mismatch_lookup st.selector s t .delimiter false _⟩

theorem claim_C8_witness :
    (([⟨0, 1, "a"⟩, ⟨1, 2, "b"⟩] : List Seg) ≠ [] ∧ ("en" : String) ≠ "fr" ∧
      (∀ i, i < 3 →
        ¬(pyJoin (DELIMITERS.getD i "")
            (([⟨0, 1, "a"⟩, ⟨1, 2, "b"⟩] : List Seg).map (fun g => pyStrip g.text)) = "" ∨
          pyStrip (pyJoin (DELIMITERS.getD i "")
            (([⟨0, 1, "a"⟩, ⟨1, 2, "b"⟩] : List Seg).map (fun g => pyStrip g.text))) = "")) ∧
      ¬ pyStrip "X" = "" ∧
      (∀ i, i < 3 → (pySplit (pyStrip "X") (DELIMITERS.getD i "")).length ≠
        ([⟨0, 1, "a"⟩, ⟨1, 2, "b"⟩] : List Seg).length)) ∧
    ((translate_batch_delimiter (constEnvW "X") ServiceState.init
        [⟨0, 1, "a"⟩, ⟨1, 2, "b"⟩] "en" "fr" 0).2 = none ∧
     ∃ m, lookupKey (translate_batch_delimiter (constEnvW "X") ServiceState.init
         [⟨0, 1, "a"⟩, ⟨1, 2, "b"⟩] "en" "fr" 0).1.selector.metrics
         ("en", "fr", .delimiter) = some m ∧
       m.attempts = ((lookupKey ServiceState.init.selector.metrics
         ("en", "fr", .delimiter)).getD BatchMetrics.init).attempts + 1 ∧
       m.mismatch_count = ((lookupKey ServiceState.init.selector.metrics
         ("en", "fr", .delimiter)).getD BatchMetrics.init).mismatch_count + 1) ∧
    (translate_batch_individual (constEnvW "X") ServiceState.init
      [⟨0, 1, "a"⟩, ⟨1, 2, "b"⟩] "en" "fr").2.length =
      ([⟨0, 1, "a"⟩, ⟨1, 2, "b"⟩] : List Seg).length :=
  ⟨⟨by decide, by decide, by with_unfolding_all decide, by with_unfolding_all decide,
    by with_unfolding_all decide⟩,
   claim_C8_delimiter_rotation.2.1 (constEnvW "X") ServiceState.init
     [⟨0, 1, "a"⟩, ⟨1, 2, "b"⟩] "en" "fr" "X" "X" "X" (by decide) (by decide)
     (by with_unfolding_all decide) rfl rfl rfl
     (by with_unfolding_all decide) (by with_unfolding_all decide)
     (by with_unfolding_all decide) (by with_unfolding_all decide)
     (by with_unfolding_all decide) (by with_unfolding_all decide),
   claim_C8_delimiter_rotation.2.2 (constEnvW "X") ServiceState.init
     [⟨0, 1, "a"⟩, ⟨1, 2, "b"⟩] "en" "fr"⟩

/-- C9: the cache never exceeds its capacity under any `get`/`set`
sequence; with capacity 2, inserting distinct fingerprints A, B, C evicts
exactly A (B and C still hit); and a failed remote call never writes to
the cache (`_translate_single` returns the original text leaving the
entries untouched). -/
theorem claim_C9_cache_invariants :
    (∀ c, CacheReach c → c.entries.length ≤ c.max_size) ∧
    (∀ (s t ta tb tc va vb vc : String),
       fingerprint ta s t ≠ fingerprint tb s t →
       fingerprint ta s t ≠ fingerprint tc s t →
       fingerprint tb s t ≠ fingerprint tc s t →
       ((((TranslationCache.mkEmpty 2).set ta s t va).set tb s t vb).set tc s t vc).entries =
         [(fingerprint tb s t, vb), (fingerprint tc s t, vc)] ∧
       (((((TranslationCache.mkEmpty 2).set ta s t va).set tb s t vb).set tc s t vc).get
         ta s t).1 = none ∧
       (((((TranslationCache.mkEmpty 2).set ta s t va).set tb s t vb).set tc s t vc).get
         tb s t).1 = some vb ∧
       (((((TranslationCache.mkEmpty 2).set ta s t va).set tb s t vb).set tc s t vc).get
         tc s t).1 = some vc) ∧
    (∀ (env : Env) (st : ServiceState) (text s t : String),
       alookup st.cache.entries (fingerprint text s t) = none → s ≠ t →
       text ≠ "" → pyStrip text ≠ "" → (∀ k, env.remote k text = none) →
       (translate_single env st text s t).2 = text ∧
       (translate_single env st text s t).1.cache.entries = st.cache.entries) :=
  ⟨cache_reach_card, cache_lru_scenario, translate_single_fail⟩

theorem claim_C9_witness :
    ((TranslationCache.mkEmpty 2).entries.length ≤ (TranslationCache.mkEmpty 2).max_size) ∧
    ((fingerprint "a" "en" "fr" ≠ fingerprint "b" "en" "fr" ∧
      fingerprint "a" "en" "fr" ≠ fingerprint "c" "en" "fr" ∧
      fingerprint "b" "en" "fr" ≠ fingerprint "c" "en" "fr") ∧
     (((((TranslationCache.mkEmpty 2).set "a" "en" "fr" "A").set "b" "en" "fr" "B").set
         "c" "en" "fr" "C").get "a" "en" "fr").1 = none) ∧
    ((translate_single failEnvW ServiceState.init "hi" "en" "fr").2 = "hi" ∧
     (translate_single failEnvW ServiceState.init "hi" "en" "fr").1.cache.entries =
       ServiceState.init.cache.entries) :=
  ⟨claim_C9_cache_invariants.1 (TranslationCache.mkEmpty 2) (CacheReach.init 2),
   ⟨⟨by with_unfolding_all decide, by with_unfolding_all decide,
     by with_unfolding_all decide⟩,
    (claim_C9_cache_invariants.2.1 "en" "fr" "a" "b" "c" "A" "B" "C"
      (by with_unfolding_all decide) (by with_unfolding_all decide)
      (by with_unfolding_all decide)).2.1⟩,
   ⟨(claim_C9_cache_invariants.2.2 failEnvW ServiceState.init "hi" "en" "fr"
      rfl (by decide) (by decide) (by with_unfolding_all decide) (fun _ => rfl)).1,
    (claim_C9_cache_invariants.2.2 failEnvW ServiceState.init "hi" "en" "fr"
      rfl (by decide) (by decide) (by with_unfolding_all decide) (fun _ => rfl)).2⟩⟩

/-- C10: the empty-list and identity fast paths precede language
validation: for any target (supported or not), `translate_segments` on
`[]` returns `[]` and on `source = target` returns the input unchanged,
with no error and no state change; and the source language is never
validated — any source passes as long as the target is supported. -/
theorem claim_C10_fast_paths :
    (∀ (env : Env) (st : ServiceState) (s t : String),
       translate_segments env st [] s t = (st, .ok [])) ∧
    (∀ (env : Env) (st : ServiceState) (segs : List Seg) (L : String),
       translate_segments env st segs L L = (st, .ok segs)) ∧
    (∀ (env : Env) (st : ServiceState) (segs : List Seg) (s t : String),
       supported_languages.contains s = false →
       supported_languages.contains t = true →
       ∃ res, (translate_segments env st segs s t).2 = .ok res) := by
  refine ⟨translate_segments_nil, translate_segments_id, ?_⟩
  intro env st segs s t _ h3
  exact translate_segments_ok_or_unsupported env st segs s t h3

theorem claim_C10_witness :
    (translate_segments failEnvW ServiceState.init [] "en" "zz" =
      (ServiceState.init, .ok []) ∧
     translate_segments failEnvW ServiceState.init [⟨0, 1, "hi"⟩] "zz" "zz" =
      (ServiceState.init, .ok [⟨0, 1, "hi"⟩])) ∧
    (supported_languages.contains "xx" = false ∧
     supported_languages.contains "fr" = true ∧
     ∃ res, (translate_segments failEnvW ServiceState.init [⟨0, 1, "hi"⟩] "xx" "fr").2 =
       .ok res) :=
  ⟨⟨claim_C10_fast_paths.1 failEnvW ServiceState.init "en" "zz",
    claim_C10_fast_paths.2.1 failEnvW ServiceState.init [⟨0, 1, "hi"⟩] "zz"⟩,
   ⟨by decide, by decide,
    claim_C10_fast_paths.2.2 failEnvW ServiceState.init [⟨0, 1, "hi"⟩] "xx" "fr"
      (by decide) (by decide)⟩⟩

end AITranscription
